import Mathlib

/-!
Shallow embedding of the availability-estimation engine of the
store-monitoring system (`apps/utils/report_data.py`,
`apps/utils/business_hours.py`, `apps/models.py`), together with proofs
about the embedded functions.

Conventions of the embedding:
* An instant (Python naive `datetime`) is a rational number of seconds
  since an epoch chosen to fall on a Monday midnight, so that
  `date.weekday()` becomes `day % 7` with `0 = Monday`, exactly as in
  Python.  A calendar date (`datetime.date`) is its integer day number.
* A time-of-day (`datetime.time`) is a rational number of seconds in
  `[0, 86400)`.
* `timedelta` arithmetic becomes plain rational arithmetic in seconds:
  `timedelta(weeks=1) = 604800`, `timedelta(days=1) = 86400`,
  `timedelta(hours=1) = 3600`, `timedelta(minutes=15) = 900`,
  `.total_seconds()` is the identity.
* Python `int` arithmetic on weekdays becomes `ℤ` arithmetic; Python's
  `%` and `//` agree with Lean's `%` and `/` on `ℤ` for a positive
  divisor (both are floor-convention).
* Python booleans used in arithmetic are mapped to `0`/`1`; the value
  returned by `get_state_at_timestamp` (a float, or the constant `False`
  when no bracketing pair is found) is an `Option ℚ`, `none` standing
  for the returned `False`; Python truthiness of that value is
  `pyTruthy`.
* Code that can raise (list index assignment, Django `.get`) returns
  `Except String`; the `try/except` in `process_store_group` catches it.
-/

/-- Number of intervals per hour for time granularity
(`INTERVALS_PER_HOUR = 4` in `report_data.py`). -/
def INTERVALS_PER_HOUR : ℕ := 4

/-- The date of an instant: Python `datetime.date()`, as a day number. -/
def dateOf (t : ℚ) : ℤ := ⌊t / 86400⌋

/-- Python `date.weekday()` on a day number (epoch day 0 is a Monday,
so `0 = Monday, …, 6 = Sunday`). -/
def pyWeekday (d : ℤ) : ℤ := d % 7

/-- Python `datetime.combine(date, time)`. -/
def datetimeCombine (d : ℤ) (tod : ℚ) : ℚ := 86400 * d + tod

/-- Python `datetime.time()`: the time-of-day part of an instant. -/
def todOf (t : ℚ) : ℚ := t - 86400 * ⌊t / 86400⌋

/-- A row of the `Store` model: `(store, timestamp_utc, is_active)`,
as returned by `Store.objects.values_list(...)`. -/
structure StoreRow where
  store : ℤ
  timestamp_utc : ℚ
  is_active : Bool
deriving DecidableEq, Repr

/-- Python boolean used in float arithmetic (`True = 1.0`, `False = 0.0`). -/
def boolVal (b : Bool) : ℚ := if b then 1 else 0

/-- Length of one interval: `timedelta(minutes=60 // INTERVALS_PER_HOUR)`
in seconds. -/
def interval_length : ℚ := ((60 / INTERVALS_PER_HOUR : ℕ) : ℚ) * 60

/-- Body of the `while current_time < end` loop of
`generate_time_intervals`, made structural with an explicit fuel
argument; `generate_time_intervals` supplies enough fuel, and
`generate_time_intervals_unfold` proves the fuel invisible: the result
satisfies exactly the while-loop recurrence. -/
def timeIntervalsLoop : ℕ → ℚ → ℚ → List (ℚ × ℚ)
  | 0, _, _ => []
  | n + 1, current_time, e =>
    if current_time < e then
      (current_time, current_time + interval_length) ::
        timeIntervalsLoop n (current_time + interval_length) e
    else []

/-- Number of iterations of the loop of `generate_time_intervals`. -/
def intervalFuel (s e : ℚ) : ℕ := (⌈(e - s) / interval_length⌉).toNat

/-- Embedding of `generate_time_intervals(start, end)`: yields
`(current, current + interval_length)` while `current < end`. -/
def generate_time_intervals (s e : ℚ) : List (ℚ × ℚ) :=
  timeIntervalsLoop (intervalFuel s e) s e

theorem interval_length_eq : interval_length = 900 := by
  norm_num [interval_length, INTERVALS_PER_HOUR]

theorem intervalFuel_pos {s e : ℚ} (h : s < e) : 1 ≤ intervalFuel s e := by
  have h0 : (0 : ℚ) < (e - s) / interval_length := by
    rw [interval_length_eq]
    exact div_pos (by linarith) (by norm_num)
  have := Int.ceil_pos.mpr h0
  unfold intervalFuel
  omega

theorem intervalFuel_step {s e : ℚ} (h : s < e) :
    intervalFuel (s + interval_length) e = intervalFuel s e - 1 := by
  unfold intervalFuel
  have harg : (e - (s + interval_length)) / interval_length
      = (e - s) / interval_length - 1 := by
    rw [interval_length_eq]; ring
  rw [harg, Int.ceil_sub_one]
  have := Int.ceil_pos.mpr (show (0 : ℚ) < (e - s) / interval_length by
    rw [interval_length_eq]; exact div_pos (by linarith) (by norm_num))
  omega

theorem timeIntervalsLoop_eq (n : ℕ) (cur e : ℚ)
    (h : intervalFuel cur e ≤ n) :
    timeIntervalsLoop n cur e = generate_time_intervals cur e := by
  induction n generalizing cur with
  | zero =>
    by_cases hlt : cur < e
    · exact absurd h (by have := intervalFuel_pos hlt; omega)
    · unfold generate_time_intervals
      cases hf : intervalFuel cur e with
      | zero => rfl
      | succ m => simp [timeIntervalsLoop, hlt]
  | succ n ih =>
    by_cases hlt : cur < e
    · have h1 := intervalFuel_pos hlt
      have h2 := intervalFuel_step hlt
      have hrec : timeIntervalsLoop n (cur + interval_length) e
          = generate_time_intervals (cur + interval_length) e := by
        apply ih; omega
      have hdef : generate_time_intervals cur e
          = timeIntervalsLoop (intervalFuel cur e) cur e := rfl
      cases hf : intervalFuel cur e with
      | zero => omega
      | succ m =>
        have hm : m = intervalFuel (cur + interval_length) e := by omega
        simp only [timeIntervalsLoop, hlt, if_true, hdef, hf]
        rw [hrec, hm]
        rfl
    · unfold generate_time_intervals
      cases hf : intervalFuel cur e with
      | zero => simp [timeIntervalsLoop, hlt]
      | succ m => simp [timeIntervalsLoop, hlt]

/-- The while-loop recurrence of `generate_time_intervals`: this is the
defining equation of the Python generator, with the fuel eliminated. -/
theorem generate_time_intervals_unfold (s e : ℚ) :
    generate_time_intervals s e =
      if s < e then
        (s, s + interval_length) :: generate_time_intervals (s + interval_length) e
      else [] := by
  by_cases hlt : s < e
  · have h1 := intervalFuel_pos hlt
    have h2 := intervalFuel_step hlt
    unfold generate_time_intervals
    cases hf : intervalFuel s e with
    | zero => omega
    | succ m =>
      simp only [timeIntervalsLoop, hlt, if_true]
      rw [timeIntervalsLoop_eq m (s + interval_length) e (by omega)]
      rfl
  · unfold generate_time_intervals
    cases hf : intervalFuel s e with
    | zero => simp [timeIntervalsLoop, hlt]
    | succ m => simp [timeIntervalsLoop, hlt]

theorem generate_time_intervals_of_lt {s e : ℚ} (h : s < e) :
    generate_time_intervals s e =
      (s, s + interval_length) :: generate_time_intervals (s + interval_length) e := by
  rw [generate_time_intervals_unfold, if_pos h]

theorem generate_time_intervals_of_ge {s e : ℚ} (h : ¬ s < e) :
    generate_time_intervals s e = [] := by
  rw [generate_time_intervals_unfold, if_neg h]

/-- Embedding of `linear_interpolation(start_time, end_time, start_state,
end_state, timestamp)`. -/
def linear_interpolation (start_time end_time start_state end_state timestamp : ℚ) : ℚ :=
  if start_time = end_time then start_state
  else start_state + (timestamp - start_time) / (end_time - start_time) * (end_state - start_state)

/-- Embedding of `get_state_at_timestamp(timestamp, observations)`: scan
consecutive observation pairs for the first pair bracketing `timestamp`;
interpolate there; `none` (Python `False`) when no pair brackets it. -/
def get_state_at_timestamp (timestamp : ℚ) : List StoreRow → Option ℚ
  | o1 :: o2 :: rest =>
    if o1.timestamp_utc ≤ timestamp ∧ timestamp ≤ o2.timestamp_utc then
      some (linear_interpolation o1.timestamp_utc o2.timestamp_utc
        (boolVal o1.is_active) (boolVal o2.is_active) timestamp)
    else get_state_at_timestamp timestamp (o2 :: rest)
  | _ => none

/-- Embedding of `classify_time_intervals(observations, start_utc, end_utc)`:
each generated interval is classified by the state at its start instant. -/
def classify_time_intervals (observations : List StoreRow) (start_utc end_utc : ℚ) :
    List (ℚ × ℚ × Option ℚ) :=
  (generate_time_intervals start_utc end_utc).map
    (fun iv => (iv.1, iv.2, get_state_at_timestamp iv.1 observations))

/-- Python truthiness of the value returned by `get_state_at_timestamp`
(`False` is falsy; a float is truthy iff nonzero). -/
def pyTruthy : Option ℚ → Bool
  | none => false
  | some q => decide (q ≠ 0)

/-- The six accumulators of `calculate_uptime_downtime`, and the body of
the `StoreReport` summary. -/
structure UptimeDowntime where
  uptime_last_hour : ℚ
  downtime_last_hour : ℚ
  uptime_last_day : ℚ
  downtime_last_day : ℚ
  uptime_last_week : ℚ
  downtime_last_week : ℚ
deriving DecidableEq, Repr

/-- Body of the inner loop of `calculate_uptime_downtime`, for one
classified interval of the weekday `weekday`: the week bucket is
unconditional on the weekday; the hour and day buckets only accumulate
when `weekday == current_weekday`. -/
def uptimeDowntimeStep (now : ℚ) (current_weekday : ℤ) (weekday : ℤ)
    (acc : UptimeDowntime) (iv : ℚ × ℚ × Option ℚ) : UptimeDowntime :=
  let start_time := iv.1
  let end_time := iv.2.1
  let state := iv.2.2
  let acc1 :=
    if now - 604800 ≤ start_time then
      if pyTruthy state then
        { acc with uptime_last_week :=
            acc.uptime_last_week + (end_time - start_time) / 3600 }
      else
        { acc with downtime_last_week :=
            acc.downtime_last_week + (end_time - start_time) / 3600 }
    else acc
  if weekday = current_weekday then
    let acc2 :=
      if now - 3600 ≤ start_time then
        if pyTruthy state then
          { acc1 with uptime_last_hour :=
              acc1.uptime_last_hour + (end_time - start_time) / 60 }
        else
          { acc1 with downtime_last_hour :=
              acc1.downtime_last_hour + (end_time - start_time) / 60 }
      else acc1
    if now - 86400 ≤ start_time then
      if pyTruthy state then
        { acc2 with uptime_last_day :=
            acc2.uptime_last_day + (end_time - start_time) / 3600 }
      else
        { acc2 with downtime_last_day :=
            acc2.downtime_last_day + (end_time - start_time) / 3600 }
    else acc2
  else acc1

/-- Embedding of `calculate_uptime_downtime(classified_intervals)`; the
dictionary of classified intervals is a list of
`(weekday, classified list)` pairs iterated in order, and `now` is the
module-level `StoremonitoringsystemConfig.current_timestamp` passed
explicitly (`last_hour_start`, `last_day_start`, `last_week_start` are
inlined into the loop body `uptimeDowntimeStep`). -/
def calculate_uptime_downtime (classified_intervals : List (ℤ × List (ℚ × ℚ × Option ℚ)))
    (now : ℚ) : UptimeDowntime :=
  let current_weekday := pyWeekday (dateOf now)
  classified_intervals.foldl (fun acc wr =>
    wr.2.foldl (uptimeDowntimeStep now current_weekday wr.1) acc)
    ⟨0, 0, 0, 0, 0, 0⟩

/-- Python dict assignment `m[k] = v` on an integer-keyed dict viewed as
a partial function: later assignments overwrite earlier ones. -/
def dict_insert {β : Type} (m : ℤ → Option β) (k : ℤ) (v : β) : ℤ → Option β :=
  fun x => if x = k then some v else m x

/-- Embedding of `calculate_date_weekday_mapping()`: for `day` in
`range(7)`, assigns the date `now - timedelta(days=day)` to weekday
`(now.weekday() - day) % 7`.  The module-global dict starts empty for
the run and is returned. -/
def calculate_date_weekday_mapping (now : ℚ) : ℤ → Option ℤ :=
  (List.range 7).foldl
    (fun m (day : ℕ) =>
      dict_insert m ((pyWeekday (dateOf now) - (day : ℤ)) % 7)
        (dateOf (now - 86400 * (((day : ℤ)) : ℚ))))
    (fun _ => none)

/-- Embedding of `get_weekday(item)`: the weekday of the observation's
timestamp (`item[1]`). -/
def get_weekday (item : StoreRow) : ℤ := pyWeekday (dateOf item.timestamp_utc)

/-- Embedding of `itertools.groupby(l, key)`: groups contiguous runs of
elements with equal keys, in order. -/
def groupByKey {α β : Type} [DecidableEq β] (key : α → β) : List α → List (β × List α)
  | [] => []
  | x :: xs =>
    match groupByKey key xs with
    | [] => [(key x, [x])]
    | (k, g) :: rest =>
      if key x = k then (key x, x :: g) :: rest
      else (key x, [x]) :: (k, g) :: rest

/-- Python dict built from a `(key, value)` sequence by successive
assignment (`{k: v for k, v in l}`): the last occurrence of a key wins. -/
def dictOfList {β : Type} (l : List (ℤ × β)) : ℤ → Option β :=
  l.foldl (fun m kv => dict_insert m kv.1 kv.2) (fun _ => none)

/-- Embedding of `group_observations_by_date(observations)`: groups the
(time-ordered) observations into contiguous same-weekday runs and turns
them into a dict; a weekday occurring in two separate runs keeps only
the later run. -/
def group_observations_by_date (observations : List StoreRow) : ℤ → Option (List StoreRow) :=
  dictOfList (groupByKey get_weekday observations)

/-- Embedding of `filter_recent_observations(observations,
current_timestamp)`: keeps observations at most one week old. -/
def filter_recent_observations (observations : List StoreRow) (current_timestamp : ℚ) :
    List StoreRow :=
  observations.filter (fun o => current_timestamp - 604800 ≤ o.timestamp_utc)

/-- A row of the `BusinessHours` model. -/
structure BusinessHoursRow where
  store : ℤ
  day : ℤ
  start_time_local : ℚ
  end_time_local : ℚ
deriving DecidableEq, Repr

/-- A row of the `Timezone` model. -/
structure TimezoneRow where
  store : ℤ
  timezone_str : String
deriving DecidableEq, Repr

/-- An element of the `business_hours_data` list of
`get_default_business_hours_data` in `business_hours.py`. -/
structure BHEntry where
  day : ℤ
  start_utc : ℚ
  end_utc : ℚ
deriving DecidableEq, Repr

/-- Embedding of `get_default_business_hours_data()`: one entry per
weekday with the full-day window `00:00:00` (= 0 s) to `23:59:59`
(= 86399 s). -/
def get_default_business_hours_data : List BHEntry :=
  (List.range 7).map (fun day => ⟨(day : ℤ), 0, 86399⟩)

/-- Abstraction of the pytz timezone database: `tzdb tz d` is the UTC
offset (`utcoffset`, in seconds, negative west of Greenwich) of IANA
zone `tz` on calendar date `d`.  DST awareness is exactly the fact that
the offset may depend on the date. -/
abbrev TzDatabase := String → ℤ → ℚ

/-- Embedding of `convert_local_time_to_utc(local_time, timezone_info)`:
the local time-of-day is attached to `date.today()` — the wall-clock
date at the moment the code runs, an ambient input passed here as
`today` — localized, converted to UTC and reduced back to a time-of-day
by `.time()`. -/
def convert_local_time_to_utc (tzdb : TzDatabase) (today : ℤ) (local_time : ℚ)
    (timezone_info : String) : ℚ :=
  todOf (datetimeCombine today local_time - tzdb timezone_info today)

/-- Embedding of `get_timezone_info_for_store(store_id)`: Django
`.get()` returns the unique match, falls back to `"America/Chicago"`
when there is none (`DoesNotExist` is caught), and raises
`MultipleObjectsReturned` when there are several (not caught). -/
def get_timezone_info_for_store (tzTable : List TimezoneRow) (store_id : ℤ) :
    Except String String :=
  match tzTable.filter (fun r => r.store = store_id) with
  | [] => .ok "America/Chicago"
  | [r] => .ok r.timezone_str
  | _ => .error "MultipleObjectsReturned"

/-- Embedding of `convert_business_hours_to_utc(store_id,
start_time_local, end_time_local)`. -/
def convert_business_hours_to_utc (tzdb : TzDatabase) (today : ℤ)
    (tzTable : List TimezoneRow) (store_id : ℤ)
    (start_time_local end_time_local : ℚ) : Except String (ℚ × ℚ) := do
  let timezone_info ← get_timezone_info_for_store tzTable store_id
  let start_utc := convert_local_time_to_utc tzdb today start_time_local timezone_info
  let end_utc := convert_local_time_to_utc tzdb today end_time_local timezone_info
  return (start_utc, end_utc)

/-- Python list subscript read `l[i]`: negative indices count from the
end; out of range raises `IndexError`. -/
def pyListGet {α : Type} (l : List α) (i : ℤ) : Except String α :=
  let j := if i < 0 then i + l.length else i
  if 0 ≤ j ∧ j < l.length then
    match l[j.toNat]? with
    | some a => .ok a
    | none => .error "IndexError"
  else .error "IndexError"

/-- Python list subscript assignment `l[i] = v`: negative indices count
from the end; out of range raises `IndexError`. -/
def pyListSet {α : Type} (l : List α) (i : ℤ) (v : α) : Except String (List α) :=
  let j := if i < 0 then i + l.length else i
  if 0 ≤ j ∧ j < l.length then .ok (l.set j.toNat v)
  else .error "IndexError"

/-- Embedding of `get_business_hours_by_store(store_id)`: start from the
defaults, then overwrite `start_utc`/`end_utc` of the entry at index
`business_hour.day` for each `BusinessHours` row of the store.  (The
`except BusinessHours.DoesNotExist` branch in the source is dead code:
`.filter` returns an empty queryset rather than raising.) -/
def bhUpdateStep (tzdb : TzDatabase) (today : ℤ) (tzTable : List TimezoneRow)
    (store_id : ℤ) (business_hours_data : List BHEntry)
    (business_hour : BusinessHoursRow) : Except String (List BHEntry) := do
  let uc ← convert_business_hours_to_utc tzdb today tzTable store_id
    business_hour.start_time_local business_hour.end_time_local
  let entry_index := business_hour.day
  let old ← pyListGet business_hours_data entry_index
  pyListSet business_hours_data entry_index
    { old with start_utc := uc.1, end_utc := uc.2 }

def get_business_hours_by_store (tzdb : TzDatabase) (today : ℤ)
    (bhTable : List BusinessHoursRow) (tzTable : List TimezoneRow)
    (store_id : ℤ) : Except String (List BHEntry) :=
  let business_hours := bhTable.filter (fun r => r.store = store_id)
  business_hours.foldlM (bhUpdateStep tzdb today tzTable store_id)
    get_default_business_hours_data

/-- The `StoreReport` value constructed by `generate_store_report`. -/
structure StoreReport where
  store : ℤ
  uptime_last_hour : ℚ
  uptime_last_day : ℚ
  uptime_last_week : ℚ
  downtime_last_hour : ℚ
  downtime_last_day : ℚ
  downtime_last_week : ℚ
deriving DecidableEq, Repr

/-- Embedding of `generate_store_report(store_id, observations)`.  The
config timestamp `now` and the module-global `date_weekday_mapping`
(filled by `calculate_date_weekday_mapping` before the per-store
fan-out) are explicit parameters.  The dict lookup
`date_weekday_mapping[day]` and the list index
`business_hours_data[day]` are total for `day` in `range(7)` (the dict
always holds keys `0..6` and the list always has 7 entries), so their
`Option`/length guards are eliminated with defaults that cannot
trigger. -/
def generate_store_report (tzdb : TzDatabase) (today : ℤ)
    (bhTable : List BusinessHoursRow) (tzTable : List TimezoneRow)
    (now : ℚ) (mapping : ℤ → Option ℤ)
    (store_id : ℤ) (observations : List StoreRow) : Except String StoreReport := do
  let business_hours_data ← get_business_hours_by_store tzdb today bhTable tzTable store_id
  let recent_observations := filter_recent_observations observations now
  let grouped_observations := group_observations_by_date recent_observations
  let classified_intervals : List (ℤ × List (ℚ × ℚ × Option ℚ)) :=
    (List.range 7).map (fun (day : ℕ) =>
      ((day : ℤ),
        classify_time_intervals
          ((grouped_observations (day : ℤ)).getD [])
          (datetimeCombine ((mapping (day : ℤ)).getD 0)
            ((business_hours_data.getD day ⟨0, 0, 0⟩).start_utc))
          (datetimeCombine ((mapping (day : ℤ)).getD 0)
            ((business_hours_data.getD day ⟨0, 0, 0⟩).end_utc))))
  let s := calculate_uptime_downtime classified_intervals now
  return ⟨store_id, s.uptime_last_hour, s.uptime_last_day, s.uptime_last_week,
    s.downtime_last_hour, s.downtime_last_day, s.downtime_last_week⟩

/-- Embedding of `process_store_group(args)`: the per-store `try/except`
returns the report on success and `None` (plus the printed error line,
modelled as the second component) on any exception. -/
def process_store_group (tzdb : TzDatabase) (today : ℤ)
    (bhTable : List BusinessHoursRow) (tzTable : List TimezoneRow)
    (now : ℚ) (mapping : ℤ → Option ℤ)
    (args : ℤ × List StoreRow) : Option StoreReport × List String :=
  match generate_store_report tzdb today bhTable tzTable now mapping args.1 args.2 with
  | .ok store_report => (some store_report, [])
  | .error e =>
      (none, ["Error processing store group: " ++ e ++ ", " ++ toString args.1])

/-- The read-only data store consumed by `generate_store_data`: the
`Store` rows in the order produced by
`.order_by("store", "timestamp_utc")` (sortedness is a property of the
database query, stated as a hypothesis where needed), plus the
`BusinessHours` and `Timezone` tables. -/
structure Database where
  rows : List StoreRow
  business_hours : List BusinessHoursRow
  timezones : List TimezoneRow

/-- Embedding of `generate_store_data()`: group the pre-sorted rows into
contiguous per-store runs, compute the weekday-date mapping once, and
map `process_store_group` over the groups (`executor.map` preserves
order and collects every result, including the `None` of failed
groups). -/
def generate_store_data (tzdb : TzDatabase) (today : ℤ) (db : Database) (now : ℚ) :
    List (Option StoreReport) :=
  let grouped_stores := groupByKey (fun r => r.store) db.rows
  let mapping := calculate_date_weekday_mapping now
  grouped_stores.map (fun g =>
    (process_store_group tzdb today db.business_hours db.timezones now mapping g).1)

theorem intervalFuel_of_ge {s e : ℚ} (h : ¬ s < e) : intervalFuel s e = 0 := by
  have h0 : (e - s) / interval_length ≤ 0 := by
    rw [interval_length_eq]
    apply div_nonpos_of_nonpos_of_nonneg <;> [linarith; norm_num]
  have : ⌈(e - s) / interval_length⌉ ≤ (0 : ℤ) := Int.ceil_le.mpr (by exact_mod_cast h0)
  unfold intervalFuel
  omega

theorem generate_time_intervals_closed_aux (n : ℕ) :
    ∀ s e : ℚ, intervalFuel s e = n →
      generate_time_intervals s e =
        (List.range n).map
          (fun (i : ℕ) =>
            (s + interval_length * (i : ℚ), s + interval_length * ((i : ℚ) + 1))) := by
  induction n with
  | zero =>
    intro s e hn
    by_cases hlt : s < e
    · exact absurd hn (by have := intervalFuel_pos hlt; omega)
    · simp [generate_time_intervals_of_ge hlt]
  | succ m ih =>
    intro s e hn
    have hlt : s < e := by
      by_contra hge
      rw [intervalFuel_of_ge hge] at hn
      omega
    have hstep : intervalFuel (s + interval_length) e = m := by
      rw [intervalFuel_step hlt, hn]
      omega
    rw [generate_time_intervals_of_lt hlt, ih (s + interval_length) e hstep,
      List.range_succ_eq_map, List.map_cons, List.map_map]
    congr 1
    · rw [Prod.ext_iff]
      constructor <;> norm_num
    · apply List.map_congr_left
      intro i _
      simp only [Function.comp_apply, Nat.succ_eq_add_one]
      rw [Prod.ext_iff]
      constructor <;> (push_cast; ring)

/-- Closed form of the interval generator: exactly
`⌈(e - s) / interval_length⌉` full-length intervals. -/
theorem generate_time_intervals_closed (s e : ℚ) :
    generate_time_intervals s e =
      (List.range (intervalFuel s e)).map
        (fun (i : ℕ) =>
          (s + interval_length * (i : ℚ), s + interval_length * ((i : ℚ) + 1))) :=
  generate_time_intervals_closed_aux (intervalFuel s e) s e rfl

theorem intervalFuel_cast {s e : ℚ} (h : s < e) :
    (intervalFuel s e : ℚ) = (⌈(e - s) / interval_length⌉ : ℤ) := by
  have h0 : (0 : ℚ) < (e - s) / interval_length := by
    rw [interval_length_eq]
    exact div_pos (by linarith) (by norm_num)
  have h1 := Int.ceil_pos.mpr h0
  unfold intervalFuel
  have h2 : (⌈(e - s) / interval_length⌉.toNat : ℤ) = ⌈(e - s) / interval_length⌉ :=
    Int.toNat_of_nonneg (by omega)
  exact_mod_cast congrArg (fun z : ℤ => (z : ℚ)) h2

/-- C2 (amended): for `start < end` the generator emits at least one
interval, the first starts at `start`, every interval (the last one
included) has length exactly 15 minutes, consecutive intervals are
contiguous, and the last interval ends at or after the window end but
less than 15 minutes after it — the final partial interval is emitted
full-length, overshooting the window end instead of being truncated to
it. -/
theorem C2_interval_shape (s e : ℚ) (h : s < e) :
    generate_time_intervals s e ≠ [] ∧
    ((generate_time_intervals s e).head?.getD (0, 0)).1 = s ∧
    (∀ p ∈ generate_time_intervals s e, p.2 - p.1 = 900) ∧
    List.Chain' (fun p q : ℚ × ℚ => p.2 = q.1) (generate_time_intervals s e) ∧
    e ≤ ((generate_time_intervals s e).getLast?.getD (0, 0)).2 ∧
    ((generate_time_intervals s e).getLast?.getD (0, 0)).2 < e + 900 := by
  have hpos := intervalFuel_pos h
  obtain ⟨k, hk⟩ : ∃ k, intervalFuel s e = k + 1 := ⟨intervalFuel s e - 1, by omega⟩
  have hcl := generate_time_intervals_closed s e
  rw [hk] at hcl
  have hlast : (generate_time_intervals s e).getLast?
      = some (s + interval_length * (k : ℚ), s + interval_length * ((k : ℚ) + 1)) := by
    rw [hcl, List.range_succ, List.map_append, List.map_cons, List.map_nil,
      List.getLast?_append]
    rfl
  have hceil_le : e - s ≤ interval_length * ((k : ℚ) + 1) := by
    have h1 := Int.le_ceil ((e - s) / interval_length)
    have h2 : ((k : ℚ) + 1) = (⌈(e - s) / interval_length⌉ : ℤ) := by
      have := intervalFuel_cast h
      rw [hk] at this
      push_cast at this ⊢
      linarith
    rw [h2]
    calc e - s = (e - s) / interval_length * interval_length := by
          rw [interval_length_eq]; ring
      _ ≤ (⌈(e - s) / interval_length⌉ : ℤ) * interval_length := by
          apply mul_le_mul_of_nonneg_right h1
          rw [interval_length_eq]; norm_num
      _ = interval_length * (⌈(e - s) / interval_length⌉ : ℤ) := by ring
  have hceil_lt : interval_length * ((k : ℚ) + 1) < e - s + 900 := by
    have h2 : ((k : ℚ) + 1) = (⌈(e - s) / interval_length⌉ : ℤ) := by
      have := intervalFuel_cast h
      rw [hk] at this
      push_cast at this ⊢
      linarith
    rw [h2]
    have h1q : ((⌈(e - s) / interval_length⌉ : ℤ) : ℚ) < (e - s) / interval_length + 1 := by
      exact_mod_cast Int.ceil_lt_add_one ((e - s) / interval_length)
    rw [interval_length_eq] at h1q ⊢
    have hdiv : (e - s) / 900 * 900 = e - s := by ring
    linarith
  refine ⟨?_, ?_, ?_, ?_, ?_, ?_⟩
  · rw [hcl]
    simp
  · rw [generate_time_intervals_of_lt h]
    rfl
  · intro p hp
    rw [hcl] at hp
    obtain ⟨i, _, rfl⟩ := List.mem_map.mp hp
    rw [interval_length_eq]; ring
  · rw [hcl, List.chain'_map, List.chain'_range_succ]
    intro m _
    push_cast
    ring
  · rw [hlast]
    simp only [Option.getD_some]
    linarith
  · rw [hlast]
    simp only [Option.getD_some]
    rw [interval_length_eq] at hceil_lt ⊢
    linarith

/-- C2, closed witness: the amended interval-shape theorem instantiated
at the window `(0, 1200)`. -/
theorem C2_interval_shape_witness :
    (0 : ℚ) < 1200 ∧
    (generate_time_intervals 0 1200 ≠ [] ∧
      ((generate_time_intervals 0 1200).head?.getD (0, 0)).1 = 0 ∧
      (∀ p ∈ generate_time_intervals 0 1200, p.2 - p.1 = 900) ∧
      List.Chain' (fun p q : ℚ × ℚ => p.2 = q.1) (generate_time_intervals 0 1200) ∧
      (1200 : ℚ) ≤ ((generate_time_intervals 0 1200).getLast?.getD (0, 0)).2 ∧
      ((generate_time_intervals 0 1200).getLast?.getD (0, 0)).2 < 1200 + 900) :=
  ⟨by norm_num, C2_interval_shape 0 1200 (by norm_num)⟩

/-- C2 is false as stated: for the 20-minute window `(0, 1200)` the
generator yields `[(0, 900), (900, 1800)]` — the final interval is
emitted with the full 15-minute length and ends at 1800, not at the
window end 1200. -/
theorem C2_counterexample :
    generate_time_intervals 0 1200 = [(0, 900), (900, 1800)] ∧
    ((generate_time_intervals 0 1200).getLast?.getD (0, 0)).2 ≠ 1200 := by
  have h : generate_time_intervals 0 1200 = [(0, 900), (900, 1800)] := by
    norm_num [generate_time_intervals_of_lt, generate_time_intervals_of_ge, interval_length_eq]
  refine ⟨h, ?_⟩
  rw [h]
  norm_num

theorem dateOf_sub_int (t : ℚ) (z : ℤ) : dateOf (t - 86400 * (z : ℚ)) = dateOf t - z := by
  unfold dateOf
  have h : (t - 86400 * (z : ℚ)) / 86400 = t / 86400 - (z : ℚ) := by ring
  rw [h, Int.floor_sub_int]

set_option maxHeartbeats 2000000 in
theorem dwm_key (now : ℚ) (d : ℕ) (hd : d < 7) :
    calculate_date_weekday_mapping now ((pyWeekday (dateOf now) - (d : ℤ)) % 7)
      = some (dateOf now - (d : ℤ)) := by
  simp only [calculate_date_weekday_mapping,
    show List.range 7 = [0, 1, 2, 3, 4, 5, 6] from rfl,
    List.foldl_cons, List.foldl_nil, dict_insert, dateOf_sub_int]
  interval_cases d <;>
    (split_ifs <;> first | (exfalso; omega) | rfl)

/-- C7: for every reference instant, the weekday-date mapping assigns,
for each offset `0..6`, the date `reference.date - offset` to weekday
`(reference.weekday - offset) % 7`; every weekday key `0..6` is mapped,
to `reference.date - (reference.weekday - k) % 7`; and the mapped values
are exactly the 7 distinct consecutive calendar dates ending at the
reference's date. -/
theorem C7_date_weekday_mapping (now : ℚ) :
    (∀ d : ℕ, d < 7 →
      calculate_date_weekday_mapping now ((pyWeekday (dateOf now) - (d : ℤ)) % 7)
        = some (dateOf now - (d : ℤ))) ∧
    (∀ k : ℤ, 0 ≤ k → k < 7 →
      calculate_date_weekday_mapping now k
        = some (dateOf now - (pyWeekday (dateOf now) - k) % 7)) ∧
    (∀ v : ℤ,
      (∃ k : ℤ, 0 ≤ k ∧ k < 7 ∧ calculate_date_weekday_mapping now k = some v) ↔
        (dateOf now - 6 ≤ v ∧ v ≤ dateOf now)) := by
  have h2 : ∀ k : ℤ, 0 ≤ k → k < 7 →
      calculate_date_weekday_mapping now k
        = some (dateOf now - (pyWeekday (dateOf now) - k) % 7) := by
    intro k hk0 hk7
    have hd : ((pyWeekday (dateOf now) - k) % 7).toNat < 7 := by omega
    have h := dwm_key now ((pyWeekday (dateOf now) - k) % 7).toNat hd
    have hcast : ((((pyWeekday (dateOf now) - k) % 7).toNat : ℕ) : ℤ)
        = (pyWeekday (dateOf now) - k) % 7 := by omega
    rw [hcast] at h
    have hkey : (pyWeekday (dateOf now) - (pyWeekday (dateOf now) - k) % 7) % 7 = k := by
      unfold pyWeekday
      omega
    rw [hkey] at h
    exact h
  refine ⟨fun d hd => dwm_key now d hd, h2, ?_⟩
  intro v
  constructor
  · rintro ⟨k, hk0, hk7, hk⟩
    rw [h2 k hk0 hk7] at hk
    have hv := Option.some.inj hk
    omega
  · rintro ⟨hv1, hv2⟩
    refine ⟨(pyWeekday (dateOf now) - ((dateOf now - v).toNat : ℤ)) % 7,
      by omega, by omega, ?_⟩
    have h := dwm_key now (dateOf now - v).toNat (by omega)
    rw [h]
    congr 1
    omega

/-- C7, closed witness: the mapping theorem applied at the reference
instant 1000000 s (date 11, a Friday, weekday 4) and offset 2: weekday
`(4 - 2) % 7 = 2` is mapped to date `11 - 2 = 9`. -/
theorem C7_witness : calculate_date_weekday_mapping 1000000 2 = some 9 := by
  have hD : dateOf (1000000 : ℚ) = 11 := by
    unfold dateOf
    rw [Int.floor_eq_iff]
    norm_num
  have h := (C7_date_weekday_mapping 1000000).1 2 (by norm_num)
  rw [hD] at h
  norm_num [pyWeekday] at h
  exact h

/-- Default row used only to state list lookups at proven-in-range
indices. -/
def dummyRow : StoreRow := ⟨0, 0, false⟩

/-- Index `i` and its successor bracket the instant `ts` in `obs`:
the scanned condition of `get_state_at_timestamp`. -/
def brackets (obs : List StoreRow) (ts : ℚ) (i : ℕ) : Prop :=
  i + 1 < obs.length ∧
  (obs.getD i dummyRow).timestamp_utc ≤ ts ∧
  ts ≤ (obs.getD (i + 1) dummyRow).timestamp_utc

theorem get_state_at_timestamp_of_first_bracket (ts : ℚ) :
    ∀ (obs : List StoreRow) (i : ℕ), brackets obs ts i →
      (∀ j, j < i → ¬ brackets obs ts j) →
      get_state_at_timestamp ts obs =
        some (linear_interpolation (obs.getD i dummyRow).timestamp_utc
          (obs.getD (i + 1) dummyRow).timestamp_utc
          (boolVal (obs.getD i dummyRow).is_active)
          (boolVal (obs.getD (i + 1) dummyRow).is_active) ts) := by
  intro obs
  induction obs with
  | nil => intro i hbr _; exact absurd hbr.1 (by simp)
  | cons o1 tl ih =>
    intro i hbr hmin
    match tl, i with
    | [], 0 => exact absurd hbr.1 (by simp)
    | [], j + 1 => exact absurd hbr.1 (by simp)
    | o2 :: rest, 0 =>
      obtain ⟨_, h1, h2⟩ := hbr
      simp only [List.getD_cons_zero, List.getD_cons_succ] at h1 h2 ⊢
      unfold get_state_at_timestamp
      rw [if_pos ⟨h1, h2⟩]
    | o2 :: rest, j + 1 =>
      have hnot0 : ¬ brackets (o1 :: o2 :: rest) ts 0 := hmin 0 (by omega)
      have hcond : ¬ (o1.timestamp_utc ≤ ts ∧ ts ≤ o2.timestamp_utc) := by
        intro hc
        exact hnot0 ⟨by simp, by simpa using hc.1, by simpa using hc.2⟩
      have hbr' : brackets (o2 :: rest) ts j := by
        obtain ⟨hl, h1, h2⟩ := hbr
        exact ⟨by simpa using hl, by simpa using h1, by simpa using h2⟩
      have hmin' : ∀ k, k < j → ¬ brackets (o2 :: rest) ts k := by
        intro k hk hbk
        apply hmin (k + 1) (by omega)
        obtain ⟨hl, h1, h2⟩ := hbk
        exact ⟨by simpa using hl, by simpa using h1, by simpa using h2⟩
      have hrec := ih j hbr' hmin'
      unfold get_state_at_timestamp
      rw [if_neg hcond]
      simp only [List.getD_cons_succ]
      exact hrec

/-- C5: each interval is classified by the signal at its start instant;
at the first bracketing pair of consecutive polls the state is the exact
linear interpolation `start_state + alpha * (end_state - start_state)`;
the interpolation is exact at both endpoints, returns the start state
unchanged when the bracketing timestamps coincide, and always lies
between the two states for instants inside the bracket. -/
theorem C5_interpolated_classification :
    (∀ (obs : List StoreRow) (s e : ℚ) (trip : ℚ × ℚ × Option ℚ),
      trip ∈ classify_time_intervals obs s e →
        trip.2.2 = get_state_at_timestamp trip.1 obs) ∧
    (∀ (ts : ℚ) (obs : List StoreRow) (i : ℕ), brackets obs ts i →
      (∀ j, j < i → ¬ brackets obs ts j) →
      (get_state_at_timestamp ts obs =
        some ((boolVal (obs.getD i dummyRow).is_active) +
          (ts - (obs.getD i dummyRow).timestamp_utc) /
              ((obs.getD (i + 1) dummyRow).timestamp_utc -
                (obs.getD i dummyRow).timestamp_utc) *
            ((boolVal (obs.getD (i + 1) dummyRow).is_active) -
              (boolVal (obs.getD i dummyRow).is_active)))) ∨
      ((obs.getD i dummyRow).timestamp_utc = (obs.getD (i + 1) dummyRow).timestamp_utc ∧
        get_state_at_timestamp ts obs =
          some (boolVal (obs.getD i dummyRow).is_active))) ∧
    (∀ t1 t2 s1 s2 : ℚ,
      (linear_interpolation t1 t2 s1 s2 t1 = s1) ∧
      (t1 ≠ t2 → linear_interpolation t1 t2 s1 s2 t2 = s2) ∧
      (∀ ts : ℚ, t1 = t2 → linear_interpolation t1 t2 s1 s2 ts = s1) ∧
      (∀ ts : ℚ, t1 ≤ ts → ts ≤ t2 →
        min s1 s2 ≤ linear_interpolation t1 t2 s1 s2 ts ∧
        linear_interpolation t1 t2 s1 s2 ts ≤ max s1 s2)) := by
  refine ⟨?_, ?_, ?_⟩
  · intro obs s e trip htrip
    obtain ⟨iv, _, rfl⟩ := List.mem_map.mp htrip
    rfl
  · intro ts obs i hbr hmin
    have h := get_state_at_timestamp_of_first_bracket ts obs i hbr hmin
    by_cases heq : (obs.getD i dummyRow).timestamp_utc
        = (obs.getD (i + 1) dummyRow).timestamp_utc
    · right
      refine ⟨heq, ?_⟩
      rw [h]
      unfold linear_interpolation
      rw [if_pos heq]
    · left
      rw [h]
      unfold linear_interpolation
      rw [if_neg heq]
  · intro t1 t2 s1 s2
    refine ⟨?_, ?_, ?_, ?_⟩
    · unfold linear_interpolation
      split_ifs with h
      · rfl
      · field_simp
    · intro hne
      unfold linear_interpolation
      rw [if_neg hne]
      have : t2 - t1 ≠ 0 := fun hc => hne (by linarith)
      field_simp
    · intro ts heq
      unfold linear_interpolation
      rw [if_pos heq]
    · intro ts h1 h2
      unfold linear_interpolation
      split_ifs with heq
      · constructor <;> [exact min_le_left s1 s2; exact le_max_left s1 s2]
      · have hlt : t1 < t2 := lt_of_le_of_ne (le_trans h1 h2) heq
        have hd : 0 < t2 - t1 := by linarith
        have ha0 : 0 ≤ (ts - t1) / (t2 - t1) := div_nonneg (by linarith) (by linarith)
        have ha1 : (ts - t1) / (t2 - t1) ≤ 1 := by
          rw [div_le_one hd]; linarith
        set a := (ts - t1) / (t2 - t1) with hadef
        constructor
        · rcases le_total s1 s2 with hs | hs
          · rw [min_eq_left hs]
            nlinarith
          · rw [min_eq_right hs]
            nlinarith
        · rcases le_total s1 s2 with hs | hs
          · rw [max_eq_right hs]
            nlinarith
          · rw [max_eq_left hs]
            nlinarith

/-- C5, closed witness: the classification theorem applied to the poll
pair `(t=0, active)`, `(t=10, inactive)` at the instant 5. -/
theorem C5_witness :
    brackets [⟨1, 0, true⟩, ⟨1, 10, false⟩] 5 0 ∧
    ((get_state_at_timestamp 5 [⟨1, 0, true⟩, ⟨1, 10, false⟩] =
        some ((boolVal (([⟨1, 0, true⟩, ⟨1, 10, false⟩] :
              List StoreRow).getD 0 dummyRow).is_active) +
          (5 - (([⟨1, 0, true⟩, ⟨1, 10, false⟩] :
              List StoreRow).getD 0 dummyRow).timestamp_utc) /
              ((([⟨1, 0, true⟩, ⟨1, 10, false⟩] :
                  List StoreRow).getD 1 dummyRow).timestamp_utc -
                (([⟨1, 0, true⟩, ⟨1, 10, false⟩] :
                  List StoreRow).getD 0 dummyRow).timestamp_utc) *
            ((boolVal (([⟨1, 0, true⟩, ⟨1, 10, false⟩] :
                List StoreRow).getD 1 dummyRow).is_active) -
              (boolVal (([⟨1, 0, true⟩, ⟨1, 10, false⟩] :
                List StoreRow).getD 0 dummyRow).is_active)))) ∨
      ((([⟨1, 0, true⟩, ⟨1, 10, false⟩] : List StoreRow).getD 0 dummyRow).timestamp_utc =
          (([⟨1, 0, true⟩, ⟨1, 10, false⟩] : List StoreRow).getD 1 dummyRow).timestamp_utc ∧
        get_state_at_timestamp 5 [⟨1, 0, true⟩, ⟨1, 10, false⟩] =
          some (boolVal (([⟨1, 0, true⟩, ⟨1, 10, false⟩] :
            List StoreRow).getD 0 dummyRow).is_active))) :=
  ⟨⟨by norm_num, by norm_num [dummyRow], by norm_num [dummyRow]⟩,
    C5_interpolated_classification.2.1 5 [⟨1, 0, true⟩, ⟨1, 10, false⟩] 0
      ⟨by norm_num, by norm_num [dummyRow], by norm_num [dummyRow]⟩
      (fun j hj => absurd hj (Nat.not_lt_zero j))⟩

theorem get_state_at_timestamp_none_of_no_bracket (ts : ℚ) :
    ∀ obs : List StoreRow, (∀ i, ¬ brackets obs ts i) →
      get_state_at_timestamp ts obs = none := by
  intro obs
  induction obs with
  | nil => intro _; rfl
  | cons o1 tl ih =>
    intro h
    match tl with
    | [] => rfl
    | o2 :: rest =>
      have hcond : ¬ (o1.timestamp_utc ≤ ts ∧ ts ≤ o2.timestamp_utc) := by
        intro hc
        exact h 0 ⟨by simp, by simpa using hc.1, by simpa using hc.2⟩
      have h' : ∀ i, ¬ brackets (o2 :: rest) ts i := by
        intro i hbi
        apply h (i + 1)
        obtain ⟨hl, h1, h2⟩ := hbi
        exact ⟨by simpa using hl, by simpa using h1, by simpa using h2⟩
      unfold get_state_at_timestamp
      rw [if_neg hcond]
      exact ih h'

/-- C10: a weekday whose (filtered) observation list has fewer than two
polls never yields a bracketing pair, so `get_state_at_timestamp`
returns `False` for every query instant — also for the instant equal to
a lone poll's own timestamp — and every interval classified against
such a list carries the falsy no-bracket state. -/
theorem C10_short_observations_inactive (obs : List StoreRow) (h : obs.length < 2) :
    (∀ ts : ℚ, get_state_at_timestamp ts obs = none) ∧
    (∀ o : StoreRow, get_state_at_timestamp o.timestamp_utc [o] = none) ∧
    (∀ s e : ℚ, ∀ trip ∈ classify_time_intervals obs s e,
      trip.2.2 = none ∧ pyTruthy trip.2.2 = false) := by
  have hnone : ∀ ts : ℚ, get_state_at_timestamp ts obs = none := by
    intro ts
    match obs, h with
    | [], _ => rfl
    | [o], _ => rfl
  refine ⟨hnone, fun o => rfl, ?_⟩
  intro s e trip htrip
  obtain ⟨iv, _, rfl⟩ := List.mem_map.mp htrip
  refine ⟨hnone iv.1, ?_⟩
  rw [show get_state_at_timestamp iv.1 obs = none from hnone iv.1]
  rfl

/-- C10, closed witness: a single poll at `t = 5`; the state at the
poll's own timestamp is `False` and the one interval of the window
`(0, 900)` is classified with the falsy no-bracket state. -/
theorem C10_witness :
    ([(⟨1, 5, true⟩ : StoreRow)] : List StoreRow).length < 2 ∧
    get_state_at_timestamp 5 [(⟨1, 5, true⟩ : StoreRow)] = none :=
  ⟨by norm_num,
    (C10_short_observations_inactive [(⟨1, 5, true⟩ : StoreRow)] (by norm_num)).1 5⟩

/-- Fieldwise addition of accumulator records. -/
def addUD (x y : UptimeDowntime) : UptimeDowntime :=
  ⟨x.uptime_last_hour + y.uptime_last_hour,
    x.downtime_last_hour + y.downtime_last_hour,
    x.uptime_last_day + y.uptime_last_day,
    x.downtime_last_day + y.downtime_last_day,
    x.uptime_last_week + y.uptime_last_week,
    x.downtime_last_week + y.downtime_last_week⟩

/-- The all-zero accumulator record. -/
def zeroUD : UptimeDowntime := ⟨0, 0, 0, 0, 0, 0⟩

/-- Fieldwise list sum of accumulator records. -/
def sumUD (l : List UptimeDowntime) : UptimeDowntime := l.foldr addUD zeroUD

/-- The contribution of one classified interval (under its weekday key)
to the six accumulators of `calculate_uptime_downtime`. -/
def intervalContribution (now : ℚ) (weekday : ℤ) (iv : ℚ × ℚ × Option ℚ) : UptimeDowntime :=
  ⟨if weekday = pyWeekday (dateOf now) ∧ now - 3600 ≤ iv.1 ∧ pyTruthy iv.2.2 = true then
      (iv.2.1 - iv.1) / 60 else 0,
    if weekday = pyWeekday (dateOf now) ∧ now - 3600 ≤ iv.1 ∧ pyTruthy iv.2.2 = false then
      (iv.2.1 - iv.1) / 60 else 0,
    if weekday = pyWeekday (dateOf now) ∧ now - 86400 ≤ iv.1 ∧ pyTruthy iv.2.2 = true then
      (iv.2.1 - iv.1) / 3600 else 0,
    if weekday = pyWeekday (dateOf now) ∧ now - 86400 ≤ iv.1 ∧ pyTruthy iv.2.2 = false then
      (iv.2.1 - iv.1) / 3600 else 0,
    if now - 604800 ≤ iv.1 ∧ pyTruthy iv.2.2 = true then (iv.2.1 - iv.1) / 3600 else 0,
    if now - 604800 ≤ iv.1 ∧ pyTruthy iv.2.2 = false then (iv.2.1 - iv.1) / 3600 else 0⟩

theorem addUD_zero (x : UptimeDowntime) : addUD x zeroUD = x := by
  cases x
  simp [addUD, zeroUD]

theorem addUD_assoc (x y z : UptimeDowntime) :
    addUD (addUD x y) z = addUD x (addUD y z) := by
  cases x; cases y; cases z
  simp only [addUD, UptimeDowntime.mk.injEq]
  refine ⟨?_, ?_, ?_, ?_, ?_, ?_⟩ <;> ring

set_option maxHeartbeats 2000000 in
theorem uptimeDowntimeStep_eq (now : ℚ) (w : ℤ) (acc : UptimeDowntime)
    (iv : ℚ × ℚ × Option ℚ) :
    uptimeDowntimeStep now (pyWeekday (dateOf now)) w acc iv
      = addUD acc (intervalContribution now w iv) := by
  cases acc
  obtain ⟨s, e, st⟩ := iv
  by_cases h1 : w = pyWeekday (dateOf now) <;>
    cases hp : pyTruthy st <;>
    by_cases h3 : now - 604800 ≤ s <;>
    by_cases h4 : now - 3600 ≤ s <;>
    by_cases h5 : now - 86400 ≤ s <;>
      simp [uptimeDowntimeStep, intervalContribution, addUD, h1, hp, h3, h4, h5]

theorem foldl_step_eq_sum (now : ℚ) (w : ℤ) :
    ∀ (l : List (ℚ × ℚ × Option ℚ)) (acc : UptimeDowntime),
      l.foldl (uptimeDowntimeStep now (pyWeekday (dateOf now)) w) acc
        = addUD acc (sumUD (l.map (intervalContribution now w))) := by
  intro l
  induction l with
  | nil => intro acc; simp [sumUD, addUD_zero]
  | cons x tl ih =>
    intro acc
    rw [List.foldl_cons, ih (uptimeDowntimeStep now (pyWeekday (dateOf now)) w acc x),
      uptimeDowntimeStep_eq, addUD_assoc]
    rfl

theorem calculate_uptime_downtime_eq_sum
    (ci : List (ℤ × List (ℚ × ℚ × Option ℚ))) (now : ℚ) :
    calculate_uptime_downtime ci now
      = sumUD (ci.map (fun wr => sumUD (wr.2.map (intervalContribution now wr.1)))) := by
  unfold calculate_uptime_downtime
  have haux : ∀ (l : List (ℤ × List (ℚ × ℚ × Option ℚ))) (acc : UptimeDowntime),
      l.foldl (fun acc wr =>
        wr.2.foldl (uptimeDowntimeStep now (pyWeekday (dateOf now)) wr.1) acc) acc
        = addUD acc (sumUD (l.map (fun wr =>
            sumUD (wr.2.map (intervalContribution now wr.1))))) := by
    intro l
    induction l with
    | nil => intro acc; simp [sumUD, addUD_zero]
    | cons x tl ih =>
      intro acc
      rw [List.foldl_cons, ih, foldl_step_eq_sum, addUD_assoc]
      rfl
  rw [haux]
  cases h : sumUD (ci.map (fun wr => sumUD (wr.2.map (intervalContribution now wr.1))))
  simp [addUD]

theorem sumUD_apply (f : UptimeDowntime → ℚ)
    (hadd : ∀ x y, f (addUD x y) = f x + f y) (h0 : f zeroUD = 0) :
    ∀ l : List UptimeDowntime, f (sumUD l) = (l.map f).sum := by
  intro l
  induction l with
  | nil => simpa [sumUD] using h0
  | cons x tl ih =>
    rw [show sumUD (x :: tl) = addUD x (sumUD tl) from rfl, hadd, ih,
      List.map_cons, List.sum_cons]

theorem pyTruthy_none : pyTruthy none = false := rfl

theorem calculate_uptime_downtime_fields
    (ci : List (ℤ × List (ℚ × ℚ × Option ℚ))) (now : ℚ) :
    (calculate_uptime_downtime ci now).uptime_last_week
      = (ci.map (fun wr => (wr.2.map (fun iv =>
          if now - 604800 ≤ iv.1 ∧ pyTruthy iv.2.2 = true then
            (iv.2.1 - iv.1) / 3600 else 0)).sum)).sum ∧
    (calculate_uptime_downtime ci now).downtime_last_week
      = (ci.map (fun wr => (wr.2.map (fun iv =>
          if now - 604800 ≤ iv.1 ∧ pyTruthy iv.2.2 = false then
            (iv.2.1 - iv.1) / 3600 else 0)).sum)).sum ∧
    (calculate_uptime_downtime ci now).uptime_last_day
      = (ci.map (fun wr => (wr.2.map (fun iv =>
          if wr.1 = pyWeekday (dateOf now) ∧ now - 86400 ≤ iv.1 ∧ pyTruthy iv.2.2 = true then
            (iv.2.1 - iv.1) / 3600 else 0)).sum)).sum ∧
    (calculate_uptime_downtime ci now).downtime_last_day
      = (ci.map (fun wr => (wr.2.map (fun iv =>
          if wr.1 = pyWeekday (dateOf now) ∧ now - 86400 ≤ iv.1 ∧ pyTruthy iv.2.2 = false then
            (iv.2.1 - iv.1) / 3600 else 0)).sum)).sum ∧
    (calculate_uptime_downtime ci now).uptime_last_hour
      = (ci.map (fun wr => (wr.2.map (fun iv =>
          if wr.1 = pyWeekday (dateOf now) ∧ now - 3600 ≤ iv.1 ∧ pyTruthy iv.2.2 = true then
            (iv.2.1 - iv.1) / 60 else 0)).sum)).sum ∧
    (calculate_uptime_downtime ci now).downtime_last_hour
      = (ci.map (fun wr => (wr.2.map (fun iv =>
          if wr.1 = pyWeekday (dateOf now) ∧ now - 3600 ≤ iv.1 ∧ pyTruthy iv.2.2 = false then
            (iv.2.1 - iv.1) / 60 else 0)).sum)).sum := by
  refine ⟨?_, ?_, ?_, ?_, ?_, ?_⟩ <;>
    (rw [calculate_uptime_downtime_eq_sum]) <;>
    [rw [sumUD_apply (fun x => x.uptime_last_week) (fun x y => rfl) rfl];
     rw [sumUD_apply (fun x => x.downtime_last_week) (fun x y => rfl) rfl];
     rw [sumUD_apply (fun x => x.uptime_last_day) (fun x y => rfl) rfl];
     rw [sumUD_apply (fun x => x.downtime_last_day) (fun x y => rfl) rfl];
     rw [sumUD_apply (fun x => x.uptime_last_hour) (fun x y => rfl) rfl];
     rw [sumUD_apply (fun x => x.downtime_last_hour) (fun x y => rfl) rfl]] <;>
    (rw [List.map_map];
     apply congrArg List.sum;
     apply List.map_congr_left;
     intro wr _;
     simp only [Function.comp_apply]) <;>
    [rw [sumUD_apply (fun x => x.uptime_last_week) (fun x y => rfl) rfl, List.map_map];
     rw [sumUD_apply (fun x => x.downtime_last_week) (fun x y => rfl) rfl, List.map_map];
     rw [sumUD_apply (fun x => x.uptime_last_day) (fun x y => rfl) rfl, List.map_map];
     rw [sumUD_apply (fun x => x.downtime_last_day) (fun x y => rfl) rfl, List.map_map];
     rw [sumUD_apply (fun x => x.uptime_last_hour) (fun x y => rfl) rfl, List.map_map];
     rw [sumUD_apply (fun x => x.downtime_last_hour) (fun x y => rfl) rfl, List.map_map]] <;>
    rfl

/-- C4: for every map of classified intervals and reference instant,
`calculate_uptime_downtime` adds an interval's duration in hours to
weekly uptime or downtime (by truthiness of its state) iff the
interval's start is on/after `reference - 1 week`; and only for
intervals under the reference's weekday key, it additionally adds the
duration in minutes to the hourly bucket when the start is on/after
`reference - 1 hour`, and the duration in hours to the daily bucket
when the start is on/after `reference - 1 day`. -/
theorem C4_aggregation_buckets
    (ci : List (ℤ × List (ℚ × ℚ × Option ℚ))) (now : ℚ) :
    (calculate_uptime_downtime ci now).uptime_last_week
      = (ci.map (fun wr => (wr.2.map (fun iv =>
          if now - 604800 ≤ iv.1 ∧ pyTruthy iv.2.2 = true then
            (iv.2.1 - iv.1) / 3600 else 0)).sum)).sum ∧
    (calculate_uptime_downtime ci now).downtime_last_week
      = (ci.map (fun wr => (wr.2.map (fun iv =>
          if now - 604800 ≤ iv.1 ∧ pyTruthy iv.2.2 = false then
            (iv.2.1 - iv.1) / 3600 else 0)).sum)).sum ∧
    (calculate_uptime_downtime ci now).uptime_last_day
      = (ci.map (fun wr => (wr.2.map (fun iv =>
          if wr.1 = pyWeekday (dateOf now) ∧ now - 86400 ≤ iv.1 ∧ pyTruthy iv.2.2 = true then
            (iv.2.1 - iv.1) / 3600 else 0)).sum)).sum ∧
    (calculate_uptime_downtime ci now).downtime_last_day
      = (ci.map (fun wr => (wr.2.map (fun iv =>
          if wr.1 = pyWeekday (dateOf now) ∧ now - 86400 ≤ iv.1 ∧ pyTruthy iv.2.2 = false then
            (iv.2.1 - iv.1) / 3600 else 0)).sum)).sum ∧
    (calculate_uptime_downtime ci now).uptime_last_hour
      = (ci.map (fun wr => (wr.2.map (fun iv =>
          if wr.1 = pyWeekday (dateOf now) ∧ now - 3600 ≤ iv.1 ∧ pyTruthy iv.2.2 = true then
            (iv.2.1 - iv.1) / 60 else 0)).sum)).sum ∧
    (calculate_uptime_downtime ci now).downtime_last_hour
      = (ci.map (fun wr => (wr.2.map (fun iv =>
          if wr.1 = pyWeekday (dateOf now) ∧ now - 3600 ≤ iv.1 ∧ pyTruthy iv.2.2 = false then
            (iv.2.1 - iv.1) / 60 else 0)).sum)).sum :=
  calculate_uptime_downtime_fields ci now

/-- C3: an interval whose start instant has no bracketing pair of
consecutive polls is classified `none` (the Python `False`), and in any
classified-interval map containing it the aggregation adds its duration
to downtime — to the week bucket when the start is within the trailing
week, and additionally to the day/hour buckets when its weekday key is
the reference's weekday and the start is within the trailing day/hour —
while all three uptime buckets are exactly those of the same map without
the interval. -/
theorem C3_no_bracket_is_downtime
    (obs : List StoreRow) (ws we now a b : ℚ) (st : Option ℚ)
    (m1 m2 : List (ℤ × List (ℚ × ℚ × Option ℚ)))
    (l1 l2 : List (ℚ × ℚ × Option ℚ)) (w : ℤ)
    (hmem : (a, b, st) ∈ classify_time_intervals obs ws we)
    (hnb : ∀ i, ¬ brackets obs a i) :
    st = none ∧
    (calculate_uptime_downtime (m1 ++ (w, l1 ++ (a, b, st) :: l2) :: m2) now).uptime_last_week
      = (calculate_uptime_downtime (m1 ++ (w, l1 ++ l2) :: m2) now).uptime_last_week ∧
    (calculate_uptime_downtime (m1 ++ (w, l1 ++ (a, b, st) :: l2) :: m2) now).uptime_last_day
      = (calculate_uptime_downtime (m1 ++ (w, l1 ++ l2) :: m2) now).uptime_last_day ∧
    (calculate_uptime_downtime (m1 ++ (w, l1 ++ (a, b, st) :: l2) :: m2) now).uptime_last_hour
      = (calculate_uptime_downtime (m1 ++ (w, l1 ++ l2) :: m2) now).uptime_last_hour ∧
    (calculate_uptime_downtime (m1 ++ (w, l1 ++ (a, b, st) :: l2) :: m2) now).downtime_last_week
      = (calculate_uptime_downtime (m1 ++ (w, l1 ++ l2) :: m2) now).downtime_last_week
        + (if now - 604800 ≤ a then (b - a) / 3600 else 0) ∧
    (calculate_uptime_downtime (m1 ++ (w, l1 ++ (a, b, st) :: l2) :: m2) now).downtime_last_day
      = (calculate_uptime_downtime (m1 ++ (w, l1 ++ l2) :: m2) now).downtime_last_day
        + (if w = pyWeekday (dateOf now) ∧ now - 86400 ≤ a then (b - a) / 3600 else 0) ∧
    (calculate_uptime_downtime (m1 ++ (w, l1 ++ (a, b, st) :: l2) :: m2) now).downtime_last_hour
      = (calculate_uptime_downtime (m1 ++ (w, l1 ++ l2) :: m2) now).downtime_last_hour
        + (if w = pyWeekday (dateOf now) ∧ now - 3600 ≤ a then (b - a) / 60 else 0) := by
  have hst : st = none := by
    obtain ⟨iv, _, heq⟩ := List.mem_map.mp hmem
    obtain ⟨h1, h23⟩ := Prod.mk.injEq .. ▸ heq
    obtain ⟨h2, h3⟩ := Prod.mk.injEq .. ▸ h23
    rw [← h3]
    exact get_state_at_timestamp_none_of_no_bracket (iv.1) obs
      (by rw [h1]; exact hnb)
  subst hst
  obtain ⟨hw1, hw2, hd1, hd2, hh1, hh2⟩ :=
    calculate_uptime_downtime_fields (m1 ++ (w, l1 ++ (a, b, none) :: l2) :: m2) now
  obtain ⟨gw1, gw2, gd1, gd2, gh1, gh2⟩ :=
    calculate_uptime_downtime_fields (m1 ++ (w, l1 ++ l2) :: m2) now
  refine ⟨rfl, ?_, ?_, ?_, ?_, ?_, ?_⟩
  · rw [hw1, gw1]
    simp only [List.map_append, List.map_cons, List.sum_append, List.sum_cons,
      pyTruthy_none, Bool.false_eq_true, and_false, if_false, false_and]
    ring
  · rw [hd1, gd1]
    simp only [List.map_append, List.map_cons, List.sum_append, List.sum_cons,
      pyTruthy_none, Bool.false_eq_true, and_false, if_false, false_and]
    ring
  · rw [hh1, gh1]
    simp only [List.map_append, List.map_cons, List.sum_append, List.sum_cons,
      pyTruthy_none, Bool.false_eq_true, and_false, if_false, false_and]
    ring
  · rw [hw2, gw2]
    simp only [List.map_append, List.map_cons, List.sum_append, List.sum_cons,
      pyTruthy_none, and_true]
    ring
  · rw [hd2, gd2]
    simp only [List.map_append, List.map_cons, List.sum_append, List.sum_cons,
      pyTruthy_none, and_true]
    ring
  · rw [hh2, gh2]
    simp only [List.map_append, List.map_cons, List.sum_append, List.sum_cons,
      pyTruthy_none, and_true]
    ring

/-- C3, closed witness: with no polls at all, the single interval of the
window `(0, 900)` is classified `none` and contributes only downtime at
the reference instant 450. -/
theorem C3_witness :
    ((0 : ℚ), (900 : ℚ), (none : Option ℚ)) ∈ classify_time_intervals [] 0 900 ∧
    ((none : Option ℚ) = none ∧
      (calculate_uptime_downtime [((0 : ℤ), [((0 : ℚ), (900 : ℚ), (none : Option ℚ))])]
          450).uptime_last_week
        = (calculate_uptime_downtime [((0 : ℤ), ([] : List (ℚ × ℚ × Option ℚ)))]
            450).uptime_last_week ∧
      (calculate_uptime_downtime [((0 : ℤ), [((0 : ℚ), (900 : ℚ), (none : Option ℚ))])]
          450).uptime_last_day
        = (calculate_uptime_downtime [((0 : ℤ), ([] : List (ℚ × ℚ × Option ℚ)))]
            450).uptime_last_day ∧
      (calculate_uptime_downtime [((0 : ℤ), [((0 : ℚ), (900 : ℚ), (none : Option ℚ))])]
          450).uptime_last_hour
        = (calculate_uptime_downtime [((0 : ℤ), ([] : List (ℚ × ℚ × Option ℚ)))]
            450).uptime_last_hour ∧
      (calculate_uptime_downtime [((0 : ℤ), [((0 : ℚ), (900 : ℚ), (none : Option ℚ))])]
          450).downtime_last_week
        = (calculate_uptime_downtime [((0 : ℤ), ([] : List (ℚ × ℚ × Option ℚ)))]
            450).downtime_last_week
          + (if (450 : ℚ) - 604800 ≤ 0 then ((900 : ℚ) - 0) / 3600 else 0) ∧
      (calculate_uptime_downtime [((0 : ℤ), [((0 : ℚ), (900 : ℚ), (none : Option ℚ))])]
          450).downtime_last_day
        = (calculate_uptime_downtime [((0 : ℤ), ([] : List (ℚ × ℚ × Option ℚ)))]
            450).downtime_last_day
          + (if (0 : ℤ) = pyWeekday (dateOf 450) ∧ (450 : ℚ) - 86400 ≤ 0 then
              ((900 : ℚ) - 0) / 3600 else 0) ∧
      (calculate_uptime_downtime [((0 : ℤ), [((0 : ℚ), (900 : ℚ), (none : Option ℚ))])]
          450).downtime_last_hour
        = (calculate_uptime_downtime [((0 : ℤ), ([] : List (ℚ × ℚ × Option ℚ)))]
            450).downtime_last_hour
          + (if (0 : ℤ) = pyWeekday (dateOf 450) ∧ (450 : ℚ) - 3600 ≤ 0 then
              ((900 : ℚ) - 0) / 60 else 0)) := by
  have hcl : classify_time_intervals [] 0 900 = [((0 : ℚ), (900 : ℚ), (none : Option ℚ))] := by
    unfold classify_time_intervals
    rw [generate_time_intervals_of_lt (by norm_num), interval_length_eq,
      generate_time_intervals_of_ge (by norm_num)]
    norm_num [get_state_at_timestamp]
  have hmem : ((0 : ℚ), (900 : ℚ), (none : Option ℚ)) ∈ classify_time_intervals [] 0 900 := by
    rw [hcl]
    exact List.mem_singleton.mpr rfl
  exact ⟨hmem,
    C3_no_bracket_is_downtime [] 0 900 450 0 900 none [] [] [] [] 0 hmem
      (fun i h => absurd h.1 (by simp))⟩

theorem todOf_range (t : ℚ) : 0 ≤ todOf t ∧ todOf t < 86400 := by
  unfold todOf
  have h1 : (⌊t / 86400⌋ : ℚ) ≤ t / 86400 := Int.floor_le _
  have h2 : t / 86400 < ⌊t / 86400⌋ + 1 := Int.lt_floor_add_one _
  have hd : t / 86400 * 86400 = t := by ring
  constructor <;> nlinarith

theorem get_timezone_info_ok (tzTable : List TimezoneRow) (store_id : ℤ)
    (htz : (tzTable.filter (fun r => r.store = store_id)).length ≤ 1) :
    ∃ tzname : String,
      get_timezone_info_for_store tzTable store_id = .ok tzname := by
  unfold get_timezone_info_for_store
  match h : tzTable.filter (fun r => r.store = store_id) with
  | [] => rw [h]; exact ⟨"America/Chicago", rfl⟩
  | [r] => rw [h]; exact ⟨r.timezone_str, rfl⟩
  | r1 :: r2 :: rest => rw [h] at htz; simp at htz

theorem convert_business_hours_ok (tzdb : TzDatabase) (today : ℤ)
    (tzTable : List TimezoneRow) (store_id : ℤ) (s e : ℚ)
    (htz : (tzTable.filter (fun r => r.store = store_id)).length ≤ 1) :
    ∃ p : ℚ × ℚ,
      convert_business_hours_to_utc tzdb today tzTable store_id s e = .ok p ∧
      0 ≤ p.1 ∧ p.1 < 86400 ∧ 0 ≤ p.2 ∧ p.2 < 86400 := by
  obtain ⟨tzname, hname⟩ := get_timezone_info_ok tzTable store_id htz
  refine ⟨(convert_local_time_to_utc tzdb today s tzname,
    convert_local_time_to_utc tzdb today e tzname), ?_, ?_, ?_, ?_, ?_⟩
  · unfold convert_business_hours_to_utc
    rw [hname]
    rfl
  · exact (todOf_range _).1
  · exact (todOf_range _).2
  · exact (todOf_range _).1
  · exact (todOf_range _).2

theorem pyListGet_ok {α : Type} (l : List α) (i : ℤ)
    (h0 : 0 ≤ i) (h1 : i.toNat < l.length) :
    pyListGet l i = .ok (l.get ⟨i.toNat, h1⟩) := by
  have hni : ¬ i < 0 := by omega
  have hcond : 0 ≤ i ∧ i < (l.length : ℤ) := ⟨h0, by omega⟩
  simp only [pyListGet, hni, if_false, if_pos hcond]
  rw [List.getElem?_eq_getElem h1]
  rfl

theorem pyListSet_ok {α : Type} (l : List α) (i : ℤ) (v : α)
    (h0 : 0 ≤ i) (h1 : i.toNat < l.length) :
    pyListSet l i v = .ok (l.set i.toNat v) := by
  have hni : ¬ i < 0 := by omega
  have hcond : 0 ≤ i ∧ i < (l.length : ℤ) := ⟨h0, by omega⟩
  simp only [pyListSet, hni, if_false, if_pos hcond]

/-- Invariant of the business-hours list: 7 entries, the entry at index
`i` carries day `i` and UTC times-of-day in `[0, 86400)`. -/
def bhDataOK (l : List BHEntry) : Prop :=
  l.length = 7 ∧ ∀ i : ℕ, i < 7 →
    (l.getD i ⟨0, 0, 0⟩).day = i ∧
    0 ≤ (l.getD i ⟨0, 0, 0⟩).start_utc ∧ (l.getD i ⟨0, 0, 0⟩).start_utc < 86400 ∧
    0 ≤ (l.getD i ⟨0, 0, 0⟩).end_utc ∧ (l.getD i ⟨0, 0, 0⟩).end_utc < 86400

theorem default_bhDataOK : bhDataOK get_default_business_hours_data := by
  have hd : get_default_business_hours_data
      = [⟨0, 0, 86399⟩, ⟨1, 0, 86399⟩, ⟨2, 0, 86399⟩, ⟨3, 0, 86399⟩,
          ⟨4, 0, 86399⟩, ⟨5, 0, 86399⟩, ⟨6, 0, 86399⟩] := rfl
  rw [bhDataOK, hd]
  refine ⟨rfl, ?_⟩
  intro i hi
  interval_cases i <;>
    exact ⟨by norm_num, by norm_num, by norm_num, by norm_num, by norm_num⟩

theorem bhUpdateStep_ok (tzdb : TzDatabase) (today : ℤ) (tzTable : List TimezoneRow)
    (store_id : ℤ) (htz : (tzTable.filter (fun r => r.store = store_id)).length ≤ 1)
    (data : List BHEntry) (bh : BusinessHoursRow)
    (hday0 : 0 ≤ bh.day) (hday7 : bh.day < 7) (hdata : bhDataOK data) :
    ∃ l, bhUpdateStep tzdb today tzTable store_id data bh = .ok l ∧ bhDataOK l := by
  obtain ⟨p, hconv, hp1, hp2, hp3, hp4⟩ :=
    convert_business_hours_ok tzdb today tzTable store_id
      bh.start_time_local bh.end_time_local htz
  obtain ⟨hlen, hent⟩ := hdata
  have htn : bh.day.toNat < data.length := by omega
  have hget := pyListGet_ok data bh.day hday0 htn
  have hset := pyListSet_ok data bh.day
    { data.get ⟨bh.day.toNat, htn⟩ with start_utc := p.1, end_utc := p.2 } hday0 htn
  refine ⟨data.set bh.day.toNat
    { data.get ⟨bh.day.toNat, htn⟩ with start_utc := p.1, end_utc := p.2 }, ?_, ?_, ?_⟩
  · unfold bhUpdateStep
    rw [hconv]
    show pyListGet data bh.day >>= _ = _
    rw [hget]
    show pyListSet data bh.day _ = _
    rw [hset]
  · rw [List.length_set, hlen]
  · intro i hi
    by_cases hij : bh.day.toNat = i
    · subst hij
      have hgd : (data.set bh.day.toNat
            { data.get ⟨bh.day.toNat, htn⟩ with start_utc := p.1, end_utc := p.2 }).getD
            bh.day.toNat ⟨0, 0, 0⟩
          = { data.get ⟨bh.day.toNat, htn⟩ with start_utc := p.1, end_utc := p.2 } := by
        rw [List.getD_eq_getElem?_getD, List.getElem?_set_self htn]
        rfl
      rw [hgd]
      have hday_field : (data.get ⟨bh.day.toNat, htn⟩).day = (bh.day.toNat : ℤ) := by
        have := (hent bh.day.toNat hi).1
        rw [List.getD_eq_getElem?_getD, List.getElem?_eq_getElem htn] at this
        exact this
      exact ⟨hday_field, hp1, hp2, hp3, hp4⟩
    · have hgd : (data.set bh.day.toNat
            { data.get ⟨bh.day.toNat, htn⟩ with start_utc := p.1, end_utc := p.2 }).getD
            i ⟨0, 0, 0⟩ = data.getD i ⟨0, 0, 0⟩ := by
        rw [List.getD_eq_getElem?_getD, List.getElem?_set_ne hij,
          ← List.getD_eq_getElem?_getD]
      rw [hgd]
      exact hent i hi

theorem bh_foldlM_ok (tzdb : TzDatabase) (today : ℤ) (tzTable : List TimezoneRow)
    (store_id : ℤ) (htz : (tzTable.filter (fun r => r.store = store_id)).length ≤ 1) :
    ∀ (hours : List BusinessHoursRow) (data : List BHEntry),
      (∀ r ∈ hours, 0 ≤ r.day ∧ r.day < 7) → bhDataOK data →
      ∃ l, hours.foldlM (bhUpdateStep tzdb today tzTable store_id) data = .ok l ∧
        bhDataOK l := by
  intro hours
  induction hours with
  | nil => intro data _ hdata; exact ⟨data, rfl, hdata⟩
  | cons bh tl ih =>
    intro data hdays hdata
    obtain ⟨l1, hstep, hl1⟩ :=
      bhUpdateStep_ok tzdb today tzTable store_id htz data bh
        (hdays bh (List.mem_cons_self bh tl)).1 (hdays bh (List.mem_cons_self bh tl)).2
        hdata
    obtain ⟨l2, hfold, hl2⟩ :=
      ih l1 (fun r hr => hdays r (List.mem_cons_of_mem _ hr)) hl1
    refine ⟨l2, ?_, hl2⟩
    rw [List.foldlM_cons, hstep]
    show Except.ok l1 >>= _ = _
    rw [show (Except.ok l1 >>= fun d =>
        tl.foldlM (bhUpdateStep tzdb today tzTable store_id) d)
      = tl.foldlM (bhUpdateStep tzdb today tzTable store_id) l1 from rfl]
    exact hfold

/-- C6: under the data-model constraints (weekday fields in `0..6`, at
most one timezone record per entity), `get_business_hours_by_store`
returns exactly 7 entries, one per weekday `0..6`, each carrying UTC
start and end times-of-day; and when the entity has no operating-hours
records at all, the result is exactly the default table whose every
entry is the full-day window `00:00:00`–`23:59:59`. -/
theorem C6_business_hours_resolution (tzdb : TzDatabase) (today : ℤ)
    (bhTable : List BusinessHoursRow) (tzTable : List TimezoneRow) (store_id : ℤ)
    (hdays : ∀ r ∈ bhTable.filter (fun r => r.store = store_id), 0 ≤ r.day ∧ r.day < 7)
    (htz : (tzTable.filter (fun r => r.store = store_id)).length ≤ 1) :
    (∃ l : List BHEntry,
      get_business_hours_by_store tzdb today bhTable tzTable store_id = .ok l ∧
      l.length = 7 ∧
      (∀ i : ℕ, i < 7 →
        (l.getD i ⟨0, 0, 0⟩).day = i ∧
        0 ≤ (l.getD i ⟨0, 0, 0⟩).start_utc ∧ (l.getD i ⟨0, 0, 0⟩).start_utc < 86400 ∧
        0 ≤ (l.getD i ⟨0, 0, 0⟩).end_utc ∧ (l.getD i ⟨0, 0, 0⟩).end_utc < 86400)) ∧
    (bhTable.filter (fun r => r.store = store_id) = [] →
      get_business_hours_by_store tzdb today bhTable tzTable store_id
        = .ok get_default_business_hours_data ∧
      ∀ i : ℕ, i < 7 →
        get_default_business_hours_data.getD i ⟨0, 0, 0⟩ = ⟨(i : ℤ), 0, 86399⟩) := by
  constructor
  · obtain ⟨l, hres, hlen, hent⟩ :=
      bh_foldlM_ok tzdb today tzTable store_id htz
        (bhTable.filter (fun r => r.store = store_id))
        get_default_business_hours_data hdays default_bhDataOK
    exact ⟨l, hres, hlen, hent⟩
  · intro hempty
    constructor
    · unfold get_business_hours_by_store
      rw [hempty]
      rfl
    · intro i hi
      have hd : get_default_business_hours_data
          = [⟨0, 0, 86399⟩, ⟨1, 0, 86399⟩, ⟨2, 0, 86399⟩, ⟨3, 0, 86399⟩,
              ⟨4, 0, 86399⟩, ⟨5, 0, 86399⟩, ⟨6, 0, 86399⟩] := rfl
      rw [hd]
      interval_cases i <;> norm_num

/-- C6, closed witness: the resolution theorem applied to a store with
one operating-hours record for weekday 2 and no timezone record. -/
theorem C6_witness :
    (∀ r ∈ ([⟨1, 2, 3600, 7200⟩] : List BusinessHoursRow).filter
        (fun r => r.store = 1), 0 ≤ r.day ∧ r.day < 7) ∧
    ((([] : List TimezoneRow).filter (fun r => r.store = 1)).length ≤ 1) ∧
    ((∃ l : List BHEntry,
      get_business_hours_by_store (fun _ _ => 0) 0
          [⟨1, 2, 3600, 7200⟩] [] 1 = .ok l ∧
      l.length = 7 ∧
      (∀ i : ℕ, i < 7 →
        (l.getD i ⟨0, 0, 0⟩).day = i ∧
        0 ≤ (l.getD i ⟨0, 0, 0⟩).start_utc ∧ (l.getD i ⟨0, 0, 0⟩).start_utc < 86400 ∧
        0 ≤ (l.getD i ⟨0, 0, 0⟩).end_utc ∧ (l.getD i ⟨0, 0, 0⟩).end_utc < 86400)) ∧
    (([⟨1, 2, 3600, 7200⟩] : List BusinessHoursRow).filter (fun r => r.store = 1) = [] →
      get_business_hours_by_store (fun _ _ => 0) 0 [⟨1, 2, 3600, 7200⟩] [] 1
        = .ok get_default_business_hours_data ∧
      ∀ i : ℕ, i < 7 →
        get_default_business_hours_data.getD i ⟨0, 0, 0⟩ = ⟨(i : ℤ), 0, 86399⟩)) :=
  ⟨by intro r hr; simp [List.filter] at hr; rw [hr]; norm_num,
    by simp,
    C6_business_hours_resolution (fun _ _ => 0) 0 [⟨1, 2, 3600, 7200⟩] [] 1
      (by intro r hr; simp [List.filter] at hr; rw [hr]; norm_num)
      (by simp)⟩

theorem getD_map_lt {α β : Type} (f : α → β) (l : List α) (i : ℕ)
    (h : i < l.length) (d : β) (d0 : α) :
    (l.map f).getD i d = f (l.getD i d0) := by
  rw [List.getD_eq_getElem?_getD, List.getElem?_map, List.getElem?_eq_getElem h,
    List.getD_eq_getElem?_getD, List.getElem?_eq_getElem h]
  rfl

/-- C1 (amended): the run never aborts: the output has one slot per
entity group, in group order; a group whose computation raises gets the
caught exception logged with its entity id and contributes `None` to the
output collection (a placeholder remains — the entity is not excluded
from the collection); a group whose computation succeeds contributes its
report, unaffected by other groups. -/
theorem C1_failure_isolation (tzdb : TzDatabase) (today : ℤ) (db : Database) (now : ℚ) :
    (generate_store_data tzdb today db now).length
      = (groupByKey (fun r => r.store) db.rows).length ∧
    ∀ i : ℕ, i < (groupByKey (fun r => r.store) db.rows).length →
      ((generate_store_data tzdb today db now).getD i none
          = (process_store_group tzdb today db.business_hours db.timezones now
              (calculate_date_weekday_mapping now)
              ((groupByKey (fun r => r.store) db.rows).getD i (0, []))).1 ∧
        (∀ msg : String,
          generate_store_report tzdb today db.business_hours db.timezones now
              (calculate_date_weekday_mapping now)
              ((groupByKey (fun r => r.store) db.rows).getD i (0, [])).1
              ((groupByKey (fun r => r.store) db.rows).getD i (0, [])).2
            = .error msg →
          (generate_store_data tzdb today db now).getD i none = none ∧
          (process_store_group tzdb today db.business_hours db.timezones now
              (calculate_date_weekday_mapping now)
              ((groupByKey (fun r => r.store) db.rows).getD i (0, []))).2
            = ["Error processing store group: " ++ msg ++ ", "
                ++ toString ((groupByKey (fun r => r.store) db.rows).getD i (0, [])).1]) ∧
        (∀ r : StoreReport,
          generate_store_report tzdb today db.business_hours db.timezones now
              (calculate_date_weekday_mapping now)
              ((groupByKey (fun r => r.store) db.rows).getD i (0, [])).1
              ((groupByKey (fun r => r.store) db.rows).getD i (0, [])).2
            = .ok r →
          (generate_store_data tzdb today db now).getD i none = some r)) := by
  have hgen : generate_store_data tzdb today db now
      = (groupByKey (fun r => r.store) db.rows).map (fun g =>
          (process_store_group tzdb today db.business_hours db.timezones now
            (calculate_date_weekday_mapping now) g).1) := rfl
  refine ⟨by rw [hgen, List.length_map], ?_⟩
  intro i hi
  have hslot : (generate_store_data tzdb today db now).getD i none
      = (process_store_group tzdb today db.business_hours db.timezones now
          (calculate_date_weekday_mapping now)
          ((groupByKey (fun r => r.store) db.rows).getD i (0, []))).1 := by
    rw [hgen]
    exact getD_map_lt _ _ i hi none (0, [])
  refine ⟨hslot, ?_, ?_⟩
  · intro msg hmsg
    have hproc : process_store_group tzdb today db.business_hours db.timezones now
        (calculate_date_weekday_mapping now)
        ((groupByKey (fun r => r.store) db.rows).getD i (0, []))
        = (none, ["Error processing store group: " ++ msg ++ ", "
            ++ toString ((groupByKey (fun r => r.store) db.rows).getD i (0, [])).1]) := by
      unfold process_store_group
      rw [hmsg]
    rw [hslot, hproc]
    exact ⟨rfl, rfl⟩
  · intro r hr
    have hproc : process_store_group tzdb today db.business_hours db.timezones now
        (calculate_date_weekday_mapping now)
        ((groupByKey (fun r => r.store) db.rows).getD i (0, []))
        = (some r, []) := by
      unfold process_store_group
      rw [hr]
    rw [hslot, hproc]

theorem default_bh_literal : get_default_business_hours_data
    = [⟨0, 0, 86399⟩, ⟨1, 0, 86399⟩, ⟨2, 0, 86399⟩, ⟨3, 0, 86399⟩,
        ⟨4, 0, 86399⟩, ⟨5, 0, 86399⟩, ⟨6, 0, 86399⟩] := rfl

theorem range7_literal : List.range 7 = [0, 1, 2, 3, 4, 5, 6] := rfl


/-- C1 is false in its exclusion clause: in a run over entities 1 and 2
where entity 1's group fails (its business-hours record has day 9, an
out-of-range list index), the output collection still has 2 slots; the
failed entity is not excluded but contributes `None` (slot 0), while
entity 2's report is still produced (slot 1). -/
theorem C1_counterexample :
    (generate_store_data (fun _ _ => 0) 0
        ⟨[⟨1, 999000, true⟩, ⟨2, 999000, true⟩],
          [⟨1, 9, 0, 0⟩, ⟨2, 0, 0, 0⟩, ⟨2, 1, 0, 0⟩, ⟨2, 2, 0, 0⟩, ⟨2, 3, 0, 0⟩,
            ⟨2, 4, 0, 0⟩, ⟨2, 5, 0, 0⟩, ⟨2, 6, 0, 0⟩], []⟩ 1000000).length = 2 ∧
    (generate_store_data (fun _ _ => 0) 0
        ⟨[⟨1, 999000, true⟩, ⟨2, 999000, true⟩],
          [⟨1, 9, 0, 0⟩, ⟨2, 0, 0, 0⟩, ⟨2, 1, 0, 0⟩, ⟨2, 2, 0, 0⟩, ⟨2, 3, 0, 0⟩,
            ⟨2, 4, 0, 0⟩, ⟨2, 5, 0, 0⟩, ⟨2, 6, 0, 0⟩], []⟩ 1000000).getD 0
        (some ⟨0, 0, 0, 0, 0, 0, 0⟩) = none ∧
    ((generate_store_data (fun _ _ => 0) 0
        ⟨[⟨1, 999000, true⟩, ⟨2, 999000, true⟩],
          [⟨1, 9, 0, 0⟩, ⟨2, 0, 0, 0⟩, ⟨2, 1, 0, 0⟩, ⟨2, 2, 0, 0⟩, ⟨2, 3, 0, 0⟩,
            ⟨2, 4, 0, 0⟩, ⟨2, 5, 0, 0⟩, ⟨2, 6, 0, 0⟩], []⟩ 1000000).getD 1
        none).isSome = true := by
  have hev : generate_store_data (fun _ _ => 0) 0
      ⟨[⟨1, 999000, true⟩, ⟨2, 999000, true⟩],
        [⟨1, 9, 0, 0⟩, ⟨2, 0, 0, 0⟩, ⟨2, 1, 0, 0⟩, ⟨2, 2, 0, 0⟩, ⟨2, 3, 0, 0⟩,
          ⟨2, 4, 0, 0⟩, ⟨2, 5, 0, 0⟩, ⟨2, 6, 0, 0⟩], []⟩ 1000000
      = [none, some ⟨2, 0, 0, 0, 0, 0, 0⟩] := by
    norm_num [generate_store_data, process_store_group, generate_store_report,
      get_business_hours_by_store, bhUpdateStep, convert_business_hours_to_utc,
      get_timezone_info_for_store, convert_local_time_to_utc, pyListGet, pyListSet,
      todOf, datetimeCombine, List.filter, List.foldlM, Bind.bind, Except.bind, pure,
      Except.pure, default_bh_literal, range7_literal, filter_recent_observations,
      group_observations_by_date, dictOfList, dict_insert, groupByKey, get_weekday,
      classify_time_intervals, generate_time_intervals_of_ge,
      calculate_uptime_downtime, uptimeDowntimeStep, pyWeekday, dateOf,
      calculate_date_weekday_mapping, pyTruthy,
      show Int.toNat 0 = 0 from rfl, show Int.toNat 1 = 1 from rfl,
      show Int.toNat 2 = 2 from rfl, show Int.toNat 3 = 3 from rfl,
      show Int.toNat 4 = 4 from rfl, show Int.toNat 5 = 5 from rfl,
      show Int.toNat 6 = 6 from rfl]
  rw [hev]
  norm_num

/-- C1, closed witness: the amended isolation theorem applied to the
two-entity run of `C1_counterexample` at slot 0, whose report raises
`IndexError`: the slot is `None` and the error is logged with the
entity id 1. -/
theorem C1_witness :
    (generate_store_data (fun _ _ => 0) 0
        ⟨[⟨1, 999000, true⟩, ⟨2, 999000, true⟩],
          [⟨1, 9, 0, 0⟩, ⟨2, 0, 0, 0⟩, ⟨2, 1, 0, 0⟩, ⟨2, 2, 0, 0⟩, ⟨2, 3, 0, 0⟩,
            ⟨2, 4, 0, 0⟩, ⟨2, 5, 0, 0⟩, ⟨2, 6, 0, 0⟩], []⟩ 1000000).getD 0 none = none ∧
    (process_store_group (fun _ _ => 0) 0
        [⟨1, 9, 0, 0⟩, ⟨2, 0, 0, 0⟩, ⟨2, 1, 0, 0⟩, ⟨2, 2, 0, 0⟩, ⟨2, 3, 0, 0⟩,
          ⟨2, 4, 0, 0⟩, ⟨2, 5, 0, 0⟩, ⟨2, 6, 0, 0⟩] [] 1000000
        (calculate_date_weekday_mapping 1000000)
        ((groupByKey (fun r => r.store)
            [(⟨1, 999000, true⟩ : StoreRow), ⟨2, 999000, true⟩]).getD 0 (0, []))).2
      = ["Error processing store group: " ++ "IndexError" ++ ", "
          ++ toString ((groupByKey (fun r => r.store)
              [(⟨1, 999000, true⟩ : StoreRow), ⟨2, 999000, true⟩]).getD 0 (0, [])).1] :=
  ((C1_failure_isolation (fun _ _ => 0) 0
      ⟨[⟨1, 999000, true⟩, ⟨2, 999000, true⟩],
        [⟨1, 9, 0, 0⟩, ⟨2, 0, 0, 0⟩, ⟨2, 1, 0, 0⟩, ⟨2, 2, 0, 0⟩, ⟨2, 3, 0, 0⟩,
          ⟨2, 4, 0, 0⟩, ⟨2, 5, 0, 0⟩, ⟨2, 6, 0, 0⟩], []⟩ 1000000).2 0
    (by norm_num [groupByKey])).2.1 "IndexError"
    (by norm_num [groupByKey, generate_store_report,
      get_business_hours_by_store, bhUpdateStep, convert_business_hours_to_utc,
      get_timezone_info_for_store, convert_local_time_to_utc, pyListGet, pyListSet,
      todOf, datetimeCombine, List.filter, List.foldlM, Bind.bind, Except.bind, pure,
      Except.pure, default_bh_literal])

/-- C9 (amended): the engine is deterministic once the wall-clock date
consulted by `date.today()` inside the timezone localization is fixed
alongside the input: two runs with the same polls, configuration,
timezone database (pointwise), wall-clock date and reference instant
produce identical outputs.  (Without fixing the date the claim fails:
see the counterexample, where only `today` differs.) -/
theorem C9_deterministic_given_today (tz1 tz2 : TzDatabase) (today : ℤ)
    (db1 db2 : Database) (now : ℚ)
    (hoff : ∀ z d, tz1 z d = tz2 z d)
    (hrows : db1.rows = db2.rows)
    (hbh : db1.business_hours = db2.business_hours)
    (htz : db1.timezones = db2.timezones) :
    generate_store_data tz1 today db1 now = generate_store_data tz2 today db2 now := by
  have htzdb : tz1 = tz2 := funext (fun z => funext (fun d => hoff z d))
  obtain ⟨r1, b1, t1⟩ := db1
  obtain ⟨r2, b2, t2⟩ := db2
  simp only at hrows hbh htz
  rw [htzdb, hrows, hbh, htz]

/-- C9, closed witness: the determinism theorem applied to two runs over
the same one-poll database with pointwise-equal timezone databases. -/
theorem C9_witness :
    (∀ z d, (fun (_ : String) (_ : ℤ) => (0 : ℚ)) z d
      = (fun (_ : String) (_ : ℤ) => (0 : ℚ) + 0) z d) ∧
    generate_store_data (fun _ _ => 0) 5
        ⟨[⟨1, 999000, true⟩], [⟨1, 2, 0, 0⟩], []⟩ 1000000
      = generate_store_data (fun _ _ => (0 : ℚ) + 0) 5
        ⟨[⟨1, 999000, true⟩], [⟨1, 2, 0, 0⟩], []⟩ 1000000 :=
  ⟨fun z d => by norm_num,
    C9_deterministic_given_today (fun _ _ => 0) (fun _ _ => (0 : ℚ) + 0) 5
      ⟨[⟨1, 999000, true⟩], [⟨1, 2, 0, 0⟩], []⟩
      ⟨[⟨1, 999000, true⟩], [⟨1, 2, 0, 0⟩], []⟩ 1000000
      (fun z d => by norm_num) rfl rfl rfl⟩

/-- C9 is false as stated: `convert_local_time_to_utc` localizes against
`date.today()`, the wall clock at run time, which is not part of the
poll/configuration input nor the reference instant.  With a DST-style
timezone database whose offset differs between dates 0 and 1, two runs
on the identical database and identical reference instant 1000000 —
differing only in the wall-clock date — produce different reports: the
operating windows shift by an hour, a bracketed active interval becomes
a signal gap, and uptime turns into downtime. -/
theorem C9_counterexample :
    generate_store_data (fun _ d => if d = 0 then 0 else -3600) 0
        ⟨[⟨1, 957000, true⟩, ⟨1, 958000, true⟩],
          [⟨1, 0, 7200, 8100⟩, ⟨1, 1, 7200, 8100⟩, ⟨1, 2, 7200, 8100⟩,
            ⟨1, 3, 7200, 8100⟩, ⟨1, 4, 7200, 8100⟩, ⟨1, 5, 7200, 8100⟩,
            ⟨1, 6, 7200, 8100⟩], []⟩ 1000000
      ≠ generate_store_data (fun _ d => if d = 0 then 0 else -3600) 1
        ⟨[⟨1, 957000, true⟩, ⟨1, 958000, true⟩],
          [⟨1, 0, 7200, 8100⟩, ⟨1, 1, 7200, 8100⟩, ⟨1, 2, 7200, 8100⟩,
            ⟨1, 3, 7200, 8100⟩, ⟨1, 4, 7200, 8100⟩, ⟨1, 5, 7200, 8100⟩,
            ⟨1, 6, 7200, 8100⟩], []⟩ 1000000 := by
  have h0 : generate_store_data (fun _ d => if d = 0 then 0 else -3600) 0
      ⟨[⟨1, 957000, true⟩, ⟨1, 958000, true⟩],
        [⟨1, 0, 7200, 8100⟩, ⟨1, 1, 7200, 8100⟩, ⟨1, 2, 7200, 8100⟩,
          ⟨1, 3, 7200, 8100⟩, ⟨1, 4, 7200, 8100⟩, ⟨1, 5, 7200, 8100⟩,
          ⟨1, 6, 7200, 8100⟩], []⟩ 1000000
      = [some ⟨1, 0, 1/4, 1/4, 0, 0, 3/2⟩] := by
    norm_num [generate_store_data, process_store_group, generate_store_report,
      get_business_hours_by_store, bhUpdateStep, convert_business_hours_to_utc,
      get_timezone_info_for_store, convert_local_time_to_utc, pyListGet, pyListSet,
      todOf, datetimeCombine, List.filter, List.foldlM, Bind.bind, Except.bind, pure,
      Except.pure, default_bh_literal, range7_literal, filter_recent_observations,
      group_observations_by_date, dictOfList, dict_insert, groupByKey, get_weekday,
      classify_time_intervals, generate_time_intervals_of_ge,
      generate_time_intervals_of_lt, interval_length_eq, get_state_at_timestamp,
      linear_interpolation, boolVal, calculate_uptime_downtime, uptimeDowntimeStep,
      pyWeekday, dateOf, calculate_date_weekday_mapping, pyTruthy,
      show Int.toNat 0 = 0 from rfl, show Int.toNat 1 = 1 from rfl,
      show Int.toNat 2 = 2 from rfl, show Int.toNat 3 = 3 from rfl,
      show Int.toNat 4 = 4 from rfl, show Int.toNat 5 = 5 from rfl,
      show Int.toNat 6 = 6 from rfl]
  have h1 : generate_store_data (fun _ d => if d = 0 then 0 else -3600) 1
      ⟨[⟨1, 957000, true⟩, ⟨1, 958000, true⟩],
        [⟨1, 0, 7200, 8100⟩, ⟨1, 1, 7200, 8100⟩, ⟨1, 2, 7200, 8100⟩,
          ⟨1, 3, 7200, 8100⟩, ⟨1, 4, 7200, 8100⟩, ⟨1, 5, 7200, 8100⟩,
          ⟨1, 6, 7200, 8100⟩], []⟩ 1000000
      = [some ⟨1, 0, 0, 0, 0, 1/4, 7/4⟩] := by
    norm_num [generate_store_data, process_store_group, generate_store_report,
      get_business_hours_by_store, bhUpdateStep, convert_business_hours_to_utc,
      get_timezone_info_for_store, convert_local_time_to_utc, pyListGet, pyListSet,
      todOf, datetimeCombine, List.filter, List.foldlM, Bind.bind, Except.bind, pure,
      Except.pure, default_bh_literal, range7_literal, filter_recent_observations,
      group_observations_by_date, dictOfList, dict_insert, groupByKey, get_weekday,
      classify_time_intervals, generate_time_intervals_of_ge,
      generate_time_intervals_of_lt, interval_length_eq, get_state_at_timestamp,
      linear_interpolation, boolVal, calculate_uptime_downtime, uptimeDowntimeStep,
      pyWeekday, dateOf, calculate_date_weekday_mapping, pyTruthy,
      show Int.toNat 0 = 0 from rfl, show Int.toNat 1 = 1 from rfl,
      show Int.toNat 2 = 2 from rfl, show Int.toNat 3 = 3 from rfl,
      show Int.toNat 4 = 4 from rfl, show Int.toNat 5 = 5 from rfl,
      show Int.toNat 6 = 6 from rfl]
  rw [h0, h1]
  intro hcontra
  have := List.cons.injEq .. ▸ hcontra
  simp only [List.cons.injEq, Option.some.injEq, StoreReport.mk.injEq] at hcontra
  norm_num at hcontra

/-- Predicate picking, out of the output collection, the (successful)
report of entity `y`. -/
def storeMatches (y : ℤ) : Option StoreReport → Bool
  | none => false
  | some r => decide (r.store = y)

theorem list_filter_map_comm {α β : Type} (f : α → β) (p : β → Bool) :
    ∀ l : List α, (l.map f).filter p = (l.filter (fun x => p (f x))).map f := by
  intro l
  induction l with
  | nil => rfl
  | cons x xs ih =>
    simp only [List.map_cons, List.filter_cons]
    by_cases hp : p (f x)
    · simp [hp, ih]
    · simp [hp, ih]

theorem groupByKey_nil_iff {α β : Type} [DecidableEq β] (k : α → β) (l : List α) :
    groupByKey k l = [] ↔ l = [] := by
  cases l with
  | nil => simp [groupByKey]
  | cons x xs =>
    simp only [groupByKey]
    cases h : groupByKey k xs with
    | nil => simp
    | cons p rest =>
      obtain ⟨kk, g⟩ := p
      simp only []
      split_ifs <;> simp

theorem groupByKey_head_key {α β : Type} [DecidableEq β] (k : α → β) (x : α)
    (xs : List α) (kk : β) (g : List α) (rest : List (β × List α))
    (h : groupByKey k (x :: xs) = (kk, g) :: rest) : kk = k x := by
  unfold groupByKey at h
  cases h2 : groupByKey k xs with
  | nil =>
    rw [h2] at h
    obtain ⟨h3, _⟩ := List.cons.injEq .. ▸ h
    exact (congrArg Prod.fst h3).symm
  | cons p rest' =>
    obtain ⟨k2, g2⟩ := p
    rw [h2] at h
    simp only [] at h
    by_cases he : k x = k2
    · rw [if_pos he] at h
      obtain ⟨h3, _⟩ := List.cons.injEq .. ▸ h
      exact (congrArg Prod.fst h3).symm
    · rw [if_neg he] at h
      obtain ⟨h3, _⟩ := List.cons.injEq .. ▸ h
      exact (congrArg Prod.fst h3).symm

theorem groupByKey_cons_eq {α : Type} (k : α → ℤ) (x : α) (xs : List α) :
    groupByKey k (x :: xs) =
      match groupByKey k xs with
      | [] => [(k x, [x])]
      | (kk, g) :: rest =>
          if k x = kk then (k x, x :: g) :: rest
          else (k x, [x]) :: (kk, g) :: rest := by
  conv_lhs => rw [groupByKey]
  cases groupByKey k xs with
  | nil => rfl
  | cons p rest =>
    obtain ⟨kk, g⟩ := p
    rfl

theorem groupByKey_filter_of_sorted {α : Type} [DecidableEq α] (k : α → ℤ) (y : ℤ) :
    ∀ l : List α, l.Pairwise (fun a b => k a ≤ k b) →
      (groupByKey k l).filter (fun g => g.1 = y)
        = if l.filter (fun x => k x = y) = [] then []
          else [(y, l.filter (fun x => k x = y))] := by
  intro l
  induction l with
  | nil => intro _; simp [groupByKey]
  | cons x xs ih =>
    intro hs
    obtain ⟨hx, hxs⟩ := List.pairwise_cons.mp hs
    have IH := ih hxs
    rw [groupByKey_cons_eq]
    cases hG : groupByKey k xs with
    | nil =>
      have hnil : xs = [] := (groupByKey_nil_iff k xs).mp hG
      subst hnil
      simp only []
      by_cases hxy : k x = y
      · simp [List.filter_cons, hxy]
      · simp [List.filter_cons, hxy]
    | cons p rest =>
      obtain ⟨kk, g⟩ := p
      have hne : xs ≠ [] := by
        intro hc
        rw [hc] at hG
        simp [groupByKey] at hG
      obtain ⟨x', xs', rfl⟩ : ∃ x' xs', xs = x' :: xs' := by
        cases xs with
        | nil => exact absurd rfl hne
        | cons a b => exact ⟨a, b, rfl⟩
      have hkk : kk = k x' := groupByKey_head_key k x' xs' kk g rest hG
      rw [hG] at IH
      simp only []
      by_cases heq : k x = kk
      · rw [if_pos heq]
        by_cases hxy : k x = y
        · have hkky : kk = y := heq ▸ hxy
          have hmem : x' ∈ (x' :: xs').filter (fun z => k z = y) :=
            List.mem_filter.mpr ⟨List.mem_cons_self x' xs',
              by simp [← hkk, hkky]⟩
          have hfilne : (x' :: xs').filter (fun z => k z = y) ≠ [] :=
            List.ne_nil_of_mem hmem
          rw [if_neg hfilne] at IH
          have IH2 : ((kk, g) :: rest).filter (fun gr => gr.1 = y)
              = (kk, g) :: rest.filter (fun gr => gr.1 = y) := by
            rw [List.filter_cons]
            simp [hkky]
          rw [IH2] at IH
          obtain ⟨hpair, hrest⟩ := List.cons.injEq .. ▸ IH
          obtain ⟨_, hg⟩ := Prod.mk.injEq .. ▸ hpair
          have hLHS : ((k x, x :: g) :: rest).filter (fun gr => gr.1 = y)
              = (k x, x :: g) :: rest.filter (fun gr => gr.1 = y) := by
            rw [List.filter_cons]
            simp [hxy]
          rw [hLHS, hrest]
          have hRHS : (x :: x' :: xs').filter (fun z => k z = y)
              = x :: (x' :: xs').filter (fun z => k z = y) := by
            rw [List.filter_cons]
            simp [hxy]
          rw [hRHS]
          rw [if_neg (by simp)]
          rw [hxy, hg]
        · have hkkny : ¬ kk = y := fun hc => hxy (heq.trans hc)
          have hLHS : ((k x, x :: g) :: rest).filter (fun gr => gr.1 = y)
              = rest.filter (fun gr => gr.1 = y) := by
            rw [List.filter_cons]
            simp [hxy]
          have IH2 : ((kk, g) :: rest).filter (fun gr => gr.1 = y)
              = rest.filter (fun gr => gr.1 = y) := by
            rw [List.filter_cons]
            simp [hkkny]
          rw [IH2] at IH
          have hRHS : (x :: x' :: xs').filter (fun z => k z = y)
              = (x' :: xs').filter (fun z => k z = y) := by
            rw [List.filter_cons]
            simp [hxy]
          rw [hLHS, hRHS, IH]
      · rw [if_neg heq]
        have hxlt : ∀ z ∈ x' :: xs', k z ≠ k x := by
          intro z hz
          have h1 : k x ≤ k z := hx z hz
          have h2 : k x ≤ k x' := hx x' (List.mem_cons_self x' xs')
          have h3 : k x ≠ k x' := fun hc => heq (hc.trans hkk.symm)
          cases hz with
          | head => omega
          | tail _ hz' =>
            obtain ⟨hx'z, _⟩ := List.pairwise_cons.mp hxs
            have := hx'z z hz'
            omega
        by_cases hxy : k x = y
        · have hfilnil : (x' :: xs').filter (fun z => k z = y) = [] := by
            rw [List.filter_eq_nil_iff]
            intro z hz
            simp only [decide_eq_true_eq]
            rw [← hxy]
            exact hxlt z hz
          rw [if_pos hfilnil] at IH
          have hLHS : ((k x, [x]) :: (kk, g) :: rest).filter (fun gr => gr.1 = y)
              = (k x, [x]) :: ((kk, g) :: rest).filter (fun gr => gr.1 = y) := by
            rw [List.filter_cons]
            simp [hxy]
          rw [hLHS, IH]
          have hRHS : (x :: x' :: xs').filter (fun z => k z = y)
              = x :: (x' :: xs').filter (fun z => k z = y) := by
            rw [List.filter_cons]
            simp [hxy]
          rw [hRHS, hfilnil]
          rw [if_neg (by simp)]
          rw [hxy]
        · have hLHS : ((k x, [x]) :: (kk, g) :: rest).filter (fun gr => gr.1 = y)
              = ((kk, g) :: rest).filter (fun gr => gr.1 = y) := by
            rw [List.filter_cons]
            simp [hxy]
          have hRHS : (x :: x' :: xs').filter (fun z => k z = y)
              = (x' :: xs').filter (fun z => k z = y) := by
            rw [List.filter_cons]
            simp [hxy]
          rw [hLHS, hRHS, IH]

theorem generate_store_report_store (tzdb : TzDatabase) (today : ℤ)
    (bhT : List BusinessHoursRow) (tzT : List TimezoneRow) (now : ℚ)
    (mapping : ℤ → Option ℤ) (store_id : ℤ) (obs : List StoreRow) (r : StoreReport)
    (h : generate_store_report tzdb today bhT tzT now mapping store_id obs = .ok r) :
    r.store = store_id := by
  unfold generate_store_report at h
  cases hbh : get_business_hours_by_store tzdb today bhT tzT store_id with
  | error e =>
    rw [hbh] at h
    simp [Bind.bind, Except.bind] at h
  | ok v =>
    rw [hbh] at h
    simp only [Bind.bind, Except.bind, pure, Except.pure] at h
    obtain h2 := Except.ok.inj h
    rw [← h2]

theorem process_store_group_store (tzdb : TzDatabase) (today : ℤ)
    (bhT : List BusinessHoursRow) (tzT : List TimezoneRow) (now : ℚ)
    (mapping : ℤ → Option ℤ) (g : ℤ × List StoreRow) (r : StoreReport)
    (h : (process_store_group tzdb today bhT tzT now mapping g).1 = some r) :
    r.store = g.1 := by
  unfold process_store_group at h
  cases hrep : generate_store_report tzdb today bhT tzT now mapping g.1 g.2 with
  | error e => rw [hrep] at h; simp at h
  | ok r' =>
    rw [hrep] at h
    simp only [Option.some.injEq] at h
    rw [← h]
    exact generate_store_report_store tzdb today bhT tzT now mapping g.1 g.2 r' hrep

theorem get_timezone_info_congr (t1 t2 : List TimezoneRow) (y : ℤ)
    (h : t1.filter (fun r => r.store = y) = t2.filter (fun r => r.store = y)) :
    get_timezone_info_for_store t1 y = get_timezone_info_for_store t2 y := by
  unfold get_timezone_info_for_store
  rw [h]

theorem convert_business_hours_congr (tzdb : TzDatabase) (today : ℤ)
    (t1 t2 : List TimezoneRow) (y : ℤ) (s e : ℚ)
    (h : t1.filter (fun r => r.store = y) = t2.filter (fun r => r.store = y)) :
    convert_business_hours_to_utc tzdb today t1 y s e
      = convert_business_hours_to_utc tzdb today t2 y s e := by
  unfold convert_business_hours_to_utc
  rw [get_timezone_info_congr t1 t2 y h]

theorem get_business_hours_congr (tzdb : TzDatabase) (today : ℤ)
    (b1 b2 : List BusinessHoursRow) (t1 t2 : List TimezoneRow) (y : ℤ)
    (hb : b1.filter (fun r => r.store = y) = b2.filter (fun r => r.store = y))
    (ht : t1.filter (fun r => r.store = y) = t2.filter (fun r => r.store = y)) :
    get_business_hours_by_store tzdb today b1 t1 y
      = get_business_hours_by_store tzdb today b2 t2 y := by
  unfold get_business_hours_by_store
  rw [hb]
  have hstep : bhUpdateStep tzdb today t1 y = bhUpdateStep tzdb today t2 y := by
    funext data bh
    unfold bhUpdateStep
    rw [convert_business_hours_congr tzdb today t1 t2 y
      bh.start_time_local bh.end_time_local ht]
  rw [hstep]

theorem generate_store_report_congr (tzdb : TzDatabase) (today : ℤ)
    (b1 b2 : List BusinessHoursRow) (t1 t2 : List TimezoneRow) (now : ℚ)
    (mapping : ℤ → Option ℤ) (y : ℤ) (obs : List StoreRow)
    (hb : b1.filter (fun r => r.store = y) = b2.filter (fun r => r.store = y))
    (ht : t1.filter (fun r => r.store = y) = t2.filter (fun r => r.store = y)) :
    generate_store_report tzdb today b1 t1 now mapping y obs
      = generate_store_report tzdb today b2 t2 now mapping y obs := by
  unfold generate_store_report
  rw [get_business_hours_congr tzdb today b1 b2 t1 t2 y hb ht]

theorem process_store_group_congr (tzdb : TzDatabase) (today : ℤ)
    (b1 b2 : List BusinessHoursRow) (t1 t2 : List TimezoneRow) (now : ℚ)
    (mapping : ℤ → Option ℤ) (y : ℤ) (obs : List StoreRow)
    (hb : b1.filter (fun r => r.store = y) = b2.filter (fun r => r.store = y))
    (ht : t1.filter (fun r => r.store = y) = t2.filter (fun r => r.store = y)) :
    process_store_group tzdb today b1 t1 now mapping (y, obs)
      = process_store_group tzdb today b2 t2 now mapping (y, obs) := by
  unfold process_store_group
  rw [generate_store_report_congr tzdb today b1 b2 t1 t2 now mapping y obs hb ht]

theorem filter_store_eq_of_filter_ne {α : Type} (store : α → ℤ) (X y : ℤ)
    (hy : y ≠ X) (t1 t2 : List α)
    (h : t1.filter (fun r => store r ≠ X) = t2.filter (fun r => store r ≠ X)) :
    t1.filter (fun r => store r = y) = t2.filter (fun r => store r = y) := by
  have key : ∀ t : List α, t.filter (fun r => store r = y)
      = (t.filter (fun r => store r ≠ X)).filter (fun r => store r = y) := by
    intro t
    rw [List.filter_filter]
    apply List.filter_congr
    intro a _
    by_cases ha : store a = y
    · simp [ha, hy]
    · simp [ha]
  rw [key t1, key t2, h]

theorem filtered_output (f : (ℤ × List StoreRow) → Option StoreReport)
    (hf : ∀ g r, f g = some r → r.store = g.1) (y : ℤ) :
    ∀ groups : List (ℤ × List StoreRow),
      (groups.map f).filter (storeMatches y)
        = ((groups.filter (fun g => g.1 = y)).map f).filter (storeMatches y) := by
  intro groups
  induction groups with
  | nil => rfl
  | cons g gs ih =>
    by_cases hk : g.1 = y
    · have h1 : (g :: gs).filter (fun g => g.1 = y) = g :: gs.filter (fun g => g.1 = y) := by
        rw [List.filter_cons, if_pos (by simp [hk])]
      rw [h1]
      simp only [List.map_cons, List.filter_cons]
      by_cases hm : storeMatches y (f g)
      · rw [if_pos (by simp [hm]), if_pos (by simp [hm]), ih]
      · rw [if_neg (by simp [hm]), if_neg (by simp [hm]), ih]
    · have hm : storeMatches y (f g) = false := by
        cases hfg : f g with
        | none => rfl
        | some r =>
          have := hf g r hfg
          simp [storeMatches, this, hk]
      have h1 : (g :: gs).filter (fun g => g.1 = y) = gs.filter (fun g => g.1 = y) := by
        rw [List.filter_cons, if_neg (by simp [hk])]
      rw [h1]
      simp only [List.map_cons, List.filter_cons]
      rw [if_neg (by simp [hm])]
      exact ih

/-- C8: per-entity isolation — two databases whose Store rows (sorted by
store, as the query orders them), BusinessHours records and Timezone
records agree outside entity `X` (e.g. a malformed record was injected
for `X` in one of them) produce, for every other entity `y`, the same
computed reports in the output collection of `generate_store_data`. -/
theorem C8_per_entity_isolation (tzdb : TzDatabase) (today : ℤ)
    (db1 db2 : Database) (now : ℚ) (X y : ℤ) (hy : y ≠ X)
    (hsort1 : db1.rows.Pairwise (fun a b => a.store ≤ b.store))
    (hsort2 : db2.rows.Pairwise (fun a b => a.store ≤ b.store))
    (hrows : db1.rows.filter (fun r => r.store ≠ X)
      = db2.rows.filter (fun r => r.store ≠ X))
    (hbh : db1.business_hours.filter (fun r => r.store ≠ X)
      = db2.business_hours.filter (fun r => r.store ≠ X))
    (htz : db1.timezones.filter (fun r => r.store ≠ X)
      = db2.timezones.filter (fun r => r.store ≠ X)) :
    (generate_store_data tzdb today db1 now).filter (storeMatches y)
      = (generate_store_data tzdb today db2 now).filter (storeMatches y) := by
  have hrowsy := filter_store_eq_of_filter_ne (fun r : StoreRow => r.store) X y hy
    db1.rows db2.rows hrows
  have hbhy := filter_store_eq_of_filter_ne (fun r : BusinessHoursRow => r.store) X y hy
    db1.business_hours db2.business_hours hbh
  have htzy := filter_store_eq_of_filter_ne (fun r : TimezoneRow => r.store) X y hy
    db1.timezones db2.timezones htz
  have hgen1 : generate_store_data tzdb today db1 now
      = (groupByKey (fun r => r.store) db1.rows).map
          (fun g => (process_store_group tzdb today db1.business_hours db1.timezones now
            (calculate_date_weekday_mapping now) g).1) := rfl
  have hgen2 : generate_store_data tzdb today db2 now
      = (groupByKey (fun r => r.store) db2.rows).map
          (fun g => (process_store_group tzdb today db2.business_hours db2.timezones now
            (calculate_date_weekday_mapping now) g).1) := rfl
  have h1 := filtered_output
    (fun g => (process_store_group tzdb today db1.business_hours db1.timezones now
      (calculate_date_weekday_mapping now) g).1)
    (fun g r h => process_store_group_store tzdb today db1.business_hours db1.timezones now
      (calculate_date_weekday_mapping now) g r h) y
    (groupByKey (fun r => r.store) db1.rows)
  have h2 := filtered_output
    (fun g => (process_store_group tzdb today db2.business_hours db2.timezones now
      (calculate_date_weekday_mapping now) g).1)
    (fun g r h => process_store_group_store tzdb today db2.business_hours db2.timezones now
      (calculate_date_weekday_mapping now) g r h) y
    (groupByKey (fun r => r.store) db2.rows)
  rw [hgen1, hgen2, h1, h2,
    groupByKey_filter_of_sorted (fun r : StoreRow => r.store) y db1.rows hsort1,
    groupByKey_filter_of_sorted (fun r : StoreRow => r.store) y db2.rows hsort2]
  simp only [hrowsy]
  split_ifs with hemp
  · rfl
  · refine congrArg (List.filter (storeMatches y)) ?_
    simp only [List.map_cons, List.map_nil]
    congr 1
    exact congrArg Prod.fst
      (process_store_group_congr tzdb today db1.business_hours db2.business_hours
        db1.timezones db2.timezones now (calculate_date_weekday_mapping now) y _
        hbhy htzy)

/-- C8, closed witness: the isolation theorem applied to two databases
that differ only in entity 1's rows and malformed business-hours record;
entity 2's reports in the two outputs coincide. -/
theorem C8_witness :
    (2 : ℤ) ≠ 1 ∧
    (generate_store_data (fun _ _ => 0) 0
        ⟨[⟨1, 950000, true⟩, ⟨2, 960000, true⟩], [⟨1, 9, 0, 0⟩], []⟩
        1000000).filter (storeMatches 2)
      = (generate_store_data (fun _ _ => 0) 0
          ⟨[⟨2, 960000, true⟩], [], []⟩ 1000000).filter (storeMatches 2) :=
  ⟨by norm_num,
    C8_per_entity_isolation (fun _ _ => 0) 0
      ⟨[⟨1, 950000, true⟩, ⟨2, 960000, true⟩], [⟨1, 9, 0, 0⟩], []⟩
      ⟨[⟨2, 960000, true⟩], [], []⟩ 1000000 1 2 (by norm_num)
      (by norm_num [List.pairwise_cons])
      (by norm_num [List.pairwise_cons])
      (by norm_num [List.filter])
      (by norm_num [List.filter])
      (by norm_num [List.filter])⟩
